import Mathlib

/-! # ValueRef expression engine (universe/ValueRef.h) and MovableEnvelope

A shallow embedding of the scripting context, the expression-node hierarchy
(`Constant`, `Variable`, `Operation`, `Statistic`, `StaticCast`, `StringCast`), the
sampling of a `Statistic`, the statistic reduction, the text renderings `Dump` and
`Description` and the node equality of `universe/ValueRef.h`, and of the
`MovableEnvelope` of `parse/MovableEnvelope.h`, followed by theorems about them.

Conventions of the embedding:

* a `UniverseObject*` is an `Option Nat`: `none` is the null pointer and
  `some a` the object at address `a`;
* `boost::any` is `Option A` for a carrier type `A`: `none` is the empty `any`;
* an `int` is an `Int` of the range `INT_MIN .. INT_MAX`; the `+`, `-` and `*` of
  the statistic reduction are `int_add`, `int_sub` and `int_mul`, which reduce the
  exact result modulo `2^32` into that range as the 32-bit machine instructions do
  (signed overflow is undefined in the language and wraps in the compiled code);
* a `throw` and the dereference of a null operand pointer are `Except.error`;
* a method that writes the `mutable` member `m_ref_type` of its node returns the
  node as the call leaves it next to its result.
-/

set_option linter.unusedVariables false

namespace ValueRef

/-! ## ScriptingContext -/

/-- A `const UniverseObject*`: `none` is the null pointer. -/
abbrev UniverseObjectPtr := Option Nat

/-- The `struct ScriptingContext` with its five fields. -/
structure ScriptingContext (A : Type) where
  source : UniverseObjectPtr
  effect_target : UniverseObjectPtr
  condition_root_candidate : UniverseObjectPtr
  condition_local_candidate : UniverseObjectPtr
  current_value : Option A
deriving DecidableEq, Repr

namespace ScriptingContext

variable {A : Type}

/-- Constructor `ScriptingContext()`: the empty context. -/
def empty : ScriptingContext A :=
  { source := none, effect_target := none, condition_root_candidate := none,
    condition_local_candidate := none, current_value := none }

/-- Constructor `explicit ScriptingContext(const UniverseObject* source_)`. -/
def ofSource (source_ : UniverseObjectPtr) : ScriptingContext A :=
  { source := source_, effect_target := none, condition_root_candidate := none,
    condition_local_candidate := none, current_value := none }

/-- Constructor `ScriptingContext(const UniverseObject* source_, UniverseObject* target_)`. -/
def ofSourceTarget (source_ target_ : UniverseObjectPtr) : ScriptingContext A :=
  { source := source_, effect_target := target_, condition_root_candidate := none,
    condition_local_candidate := none, current_value := none }

/-- Constructor `ScriptingContext(source_, target_, current_value_)`. -/
def ofSourceTargetValue (source_ target_ : UniverseObjectPtr) (current_value_ : Option A) :
    ScriptingContext A :=
  { source := source_, effect_target := target_, condition_root_candidate := none,
    condition_local_candidate := none, current_value := current_value_ }

/-- Constructor `ScriptingContext(const ScriptingContext& parent_context,
const boost::any& current_value_)`: keeps the parent context, but specifies the
current value. -/
def withValue (parent_context : ScriptingContext A) (current_value_ : Option A) :
    ScriptingContext A :=
  { source := parent_context.source
    effect_target := parent_context.effect_target
    condition_root_candidate := parent_context.condition_root_candidate
    condition_local_candidate := parent_context.condition_local_candidate
    current_value := current_value_ }

/-- Constructor `ScriptingContext(const ScriptingContext& parent_context,
const UniverseObject* condition_local_candidate)`: the nesting constructor.  The
conditional `parent.condition_root_candidate ? parent.condition_root_candidate :
condition_local_candidate` tests the parent's pointer for null. -/
def nest (parent_context : ScriptingContext A) (condition_local_candidate : UniverseObjectPtr) :
    ScriptingContext A :=
  { source := parent_context.source
    effect_target := parent_context.effect_target
    condition_root_candidate :=
      if parent_context.condition_root_candidate.isSome then
        parent_context.condition_root_candidate
      else
        condition_local_candidate
    condition_local_candidate := condition_local_candidate
    current_value := parent_context.current_value }

/-- Constructor `ScriptingContext(source_, target_, current_value_, condition_root_candidate_,
condition_local_candidate_)`: the initialiser list writes `effect_target(0)`. -/
def ofAll (source_ target_ : UniverseObjectPtr) (current_value_ : Option A)
    (condition_root_candidate_ condition_local_candidate_ : UniverseObjectPtr) :
    ScriptingContext A :=
  { source := source_
    effect_target := none
    condition_root_candidate := condition_root_candidate_
    condition_local_candidate := condition_local_candidate_
    current_value := current_value_ }

/-- Successive nesting: `nestAll p [c1, ..., cn]` is
`ScriptingContext(...ScriptingContext(ScriptingContext(p, c1), c2)..., cn)`. -/
def nestAll (p : ScriptingContext A) (cs : List UniverseObjectPtr) : ScriptingContext A :=
  cs.foldl nest p

end ScriptingContext

/-! ## Enumerations -/

/-- Modelled from the spec: the declaration of `enum ReferenceType` is in a header
that is not part of the sources; these are the five tags the spec lists and
`ValueRef.h` uses. -/
inductive ReferenceType where
  | NON_OBJECT_REFERENCE
  | SOURCE_REFERENCE
  | EFFECT_TARGET_REFERENCE
  | CONDITION_LOCAL_CANDIDATE_REFERENCE
  | CONDITION_ROOT_CANDIDATE_REFERENCE
deriving DecidableEq, Repr

/-- Modelled from the spec: the declaration of `enum OpType` is in a header that is
not part of the sources; these are the thirteen operator tags the spec lists and
`ValueRef.h` uses. -/
inductive OpType where
  | PLUS
  | MINUS
  | TIMES
  | DIVIDE
  | NEGATE
  | EXPONENTIATE
  | ABS
  | LOGARITHM
  | SINE
  | COSINE
  | MINIMUM
  | MAXIMUM
  | RANDOM_UNIFORM
deriving DecidableEq, Repr

/-- Modelled from the spec: the declaration of `enum StatisticType` is in a header
that is not part of the sources; these are the tags `ReduceData` switches on, and
`INVALID_STATISTIC_TYPE` stands for any other tag value (the `default:` label). -/
inductive StatisticType where
  | INVALID_STATISTIC_TYPE
  | COUNT
  | UNIQUE_COUNT
  | IF
  | SUM
  | MEAN
  | RMS
  | MODE
  | MAX
  | MIN
  | SPREAD
  | STDEV
  | PRODUCT
deriving DecidableEq, Repr

/-- What an evaluation can end with instead of a value: a thrown
`std::runtime_error` with its message, or the dereference of a null pointer. -/
inductive EvalError where
  | runtime_error (what : String)
  | null_dereference
deriving DecidableEq, Repr

deriving instance DecidableEq for Except

/-! ## Expression nodes: Constant, Variable, Operation -/

/-- The expression tree behind a `const ValueRefBase<T>*`: a `Constant<T>` with its
`m_value`, a `Variable<T>` with `m_ref_type` and `m_property_name`, or an
`Operation<T>` with `m_op_type` and the two operand pointers, each of which may be
null (`none`). -/
inductive ValueRefBase (T : Type) where
  | Constant (m_value : T)
  | Variable (m_ref_type : ReferenceType) (m_property_name : List String)
  | Operation (m_op_type : OpType) (m_operand1 m_operand2 : Option (ValueRefBase T))

namespace Operation

variable {T : Type}

/-- Constructor `Operation(OpType op_type, const ValueRefBase<T>* operand1,
const ValueRefBase<T>* operand2)`: the binary operation constructor. -/
def binary (op_type : OpType) (operand1 operand2 : Option (ValueRefBase T)) : ValueRefBase T :=
  .Operation op_type operand1 operand2

/-- Constructor `Operation(OpType op_type, const ValueRefBase<T>* operand)`: the unary operation
constructor, which sets `m_operand2(0)`. -/
def unary (op_type : OpType) (operand : Option (ValueRefBase T)) : ValueRefBase T :=
  .Operation op_type operand none

end Operation

namespace Variable

/-- Method `Variable<T>::RootCandidateInvariant`. -/
def RootCandidateInvariant (m_ref_type : ReferenceType) : Bool :=
  m_ref_type != .CONDITION_ROOT_CANDIDATE_REFERENCE

/-- Method `Variable<T>::LocalCandidateInvariant`. -/
def LocalCandidateInvariant (m_ref_type : ReferenceType) : Bool :=
  m_ref_type != .CONDITION_LOCAL_CANDIDATE_REFERENCE

/-- Method `Variable<T>::TargetInvariant`. -/
def TargetInvariant (m_ref_type : ReferenceType) : Bool :=
  m_ref_type != .EFFECT_TARGET_REFERENCE

/-- Method `Variable<T>::SourceInvariant`. -/
def SourceInvariant (m_ref_type : ReferenceType) : Bool :=
  m_ref_type != .SOURCE_REFERENCE

end Variable

namespace ValueRefBase

variable {T A : Type}

/-- The virtual `RootCandidateInvariant()`: `Constant` returns true, `Variable`
compares its tag, `Operation` returns false as soon as a non-null operand is not
invariant. -/
def RootCandidateInvariant : ValueRefBase T → Bool
  | .Constant _ => true
  | .Variable m_ref_type _ => Variable.RootCandidateInvariant m_ref_type
  | .Operation _ m_operand1 m_operand2 =>
    if (match m_operand1 with
        | some operand => !RootCandidateInvariant operand
        | none => false) then false
    else if (match m_operand2 with
        | some operand => !RootCandidateInvariant operand
        | none => false) then false
    else true

/-- The virtual `LocalCandidateInvariant()`. -/
def LocalCandidateInvariant : ValueRefBase T → Bool
  | .Constant _ => true
  | .Variable m_ref_type _ => Variable.LocalCandidateInvariant m_ref_type
  | .Operation _ m_operand1 m_operand2 =>
    if (match m_operand1 with
        | some operand => !LocalCandidateInvariant operand
        | none => false) then false
    else if (match m_operand2 with
        | some operand => !LocalCandidateInvariant operand
        | none => false) then false
    else true

/-- The virtual `TargetInvariant()`. -/
def TargetInvariant : ValueRefBase T → Bool
  | .Constant _ => true
  | .Variable m_ref_type _ => Variable.TargetInvariant m_ref_type
  | .Operation _ m_operand1 m_operand2 =>
    if (match m_operand1 with
        | some operand => !TargetInvariant operand
        | none => false) then false
    else if (match m_operand2 with
        | some operand => !TargetInvariant operand
        | none => false) then false
    else true

/-- The virtual `SourceInvariant()`. -/
def SourceInvariant : ValueRefBase T → Bool
  | .Constant _ => true
  | .Variable m_ref_type _ => Variable.SourceInvariant m_ref_type
  | .Operation _ m_operand1 m_operand2 =>
    if (match m_operand1 with
        | some operand => !SourceInvariant operand
        | none => false) then false
    else if (match m_operand2 with
        | some operand => !SourceInvariant operand
        | none => false) then false
    else true

mutual

/-- The virtual `Eval(const ScriptingContext&)`.  `Constant<T>::Eval` returns
`m_value`.  The bodies of `Variable<T>::Eval` are specialisations defined outside
the header, so the property lookup is the parameter `variableEval`, applied to the
node's tag and property path.  `Operation<T>::Eval` is the generic template: `PLUS`
and `MINUS` evaluate both operands (the left one first here) and every other tag
throws before any operand is touched. -/
def Eval [Add T] [Sub T]
    (variableEval : ReferenceType → List String → ScriptingContext A → Except EvalError T)
    (context : ScriptingContext A) : ValueRefBase T → Except EvalError T
  | .Constant m_value => .ok m_value
  | .Variable m_ref_type m_property_name => variableEval m_ref_type m_property_name context
  | .Operation .PLUS m_operand1 m_operand2 =>
    match EvalPtr variableEval context m_operand1 with
    | .error e => .error e
    | .ok lhs =>
      match EvalPtr variableEval context m_operand2 with
      | .error e => .error e
      | .ok rhs => .ok (lhs + rhs)
  | .Operation .MINUS m_operand1 m_operand2 =>
    match EvalPtr variableEval context m_operand1 with
    | .error e => .error e
    | .ok lhs =>
      match EvalPtr variableEval context m_operand2 with
      | .error e => .error e
      | .ok rhs => .ok (lhs - rhs)
  | .Operation _ _ _ =>
    .error (.runtime_error "ValueRef evaluated with an unknown or invalid OpType.")

/-- The call `m_operand->Eval(context)` through an operand pointer: a null pointer
(`none`) is a null dereference. -/
def EvalPtr [Add T] [Sub T]
    (variableEval : ReferenceType → List String → ScriptingContext A → Except EvalError T)
    (context : ScriptingContext A) : Option (ValueRefBase T) → Except EvalError T
  | none => .error .null_dereference
  | some operand => Eval variableEval context operand

end

end ValueRefBase

/-! ## The four context axes -/

/-- The four axes of the invariance analysis. -/
inductive Axis where
  | RootCandidate
  | LocalCandidate
  | Target
  | Source
deriving DecidableEq, Repr

/-- The invariance predicate of a node for one axis. -/
def ValueRefBase.InvariantOn {T : Type} (axis : Axis) (e : ValueRefBase T) : Bool :=
  match axis with
  | .RootCandidate => e.RootCandidateInvariant
  | .LocalCandidate => e.LocalCandidateInvariant
  | .Target => e.TargetInvariant
  | .Source => e.SourceInvariant

/-- The context slot a reference type selects; `NON_OBJECT_REFERENCE` selects none. -/
def ScriptingContext.slot {A : Type} (m_ref_type : ReferenceType) (context : ScriptingContext A) :
    UniverseObjectPtr :=
  match m_ref_type with
  | .NON_OBJECT_REFERENCE => none
  | .SOURCE_REFERENCE => context.source
  | .EFFECT_TARGET_REFERENCE => context.effect_target
  | .CONDITION_LOCAL_CANDIDATE_REFERENCE => context.condition_local_candidate
  | .CONDITION_ROOT_CANDIDATE_REFERENCE => context.condition_root_candidate

/-- Two contexts agree on every field except, possibly, the slot of `axis`. -/
def ScriptingContext.AgreeExcept {A : Type} (axis : Axis) (c1 c2 : ScriptingContext A) : Prop :=
  (axis ≠ .Source → c1.source = c2.source) ∧
  (axis ≠ .Target → c1.effect_target = c2.effect_target) ∧
  (axis ≠ .RootCandidate → c1.condition_root_candidate = c2.condition_root_candidate) ∧
  (axis ≠ .LocalCandidate → c1.condition_local_candidate = c2.condition_local_candidate) ∧
  c1.current_value = c2.current_value

/-- A property lookup reads only the context slot selected by the reference type
and the current value: on two contexts that agree on both it gives the same result. -/
def ReadsOnlySelectedSlot {T A : Type}
    (variableEval : ReferenceType → List String → ScriptingContext A → Except EvalError T) :
    Prop :=
  ∀ m_ref_type m_property_name c1 c2,
    ScriptingContext.slot m_ref_type c1 = ScriptingContext.slot m_ref_type c2 →
    c1.current_value = c2.current_value →
    variableEval m_ref_type m_property_name c1 = variableEval m_ref_type m_property_name c2

/-- A property lookup in the shape `Variable<int>::Eval` has: it resolves the object
its reference type selects and fails when the slot is empty; the property read here
is the object's address.  With `NON_OBJECT_REFERENCE` it returns the current value
and fails when there is none. -/
def addressLookup (m_ref_type : ReferenceType) (m_property_name : List String)
    (context : ScriptingContext Int) : Except EvalError Int :=
  match m_ref_type with
  | .NON_OBJECT_REFERENCE =>
    match context.current_value with
    | some value => .ok value
    | none => .error (.runtime_error "no current value")
  | _ =>
    match context.slot m_ref_type with
    | some object => .ok (object : Nat)
    | none => .error (.runtime_error "unresolvable reference")

/-- The expression `Source.ID + 1` as a tree. -/
def sourceIdPlusOne : ValueRefBase Int :=
  .Operation .PLUS (some (.Variable .SOURCE_REFERENCE ["Source", "ID"])) (some (.Constant 1))

/-- A context with source object `5`, the given local candidate, and nothing else. -/
def sourceFiveContext (condition_local_candidate : UniverseObjectPtr) : ScriptingContext Int :=
  { source := some 5, effect_target := none, condition_root_candidate := none,
    condition_local_candidate := condition_local_candidate, current_value := none }

/-! ## Statistic -/

/-- Modelled from the spec: `Condition::ConditionBase` is declared in `Condition.h`,
which is not part of the sources; of a sampling condition the invariance analysis
uses its three invariance predicates. -/
structure ConditionBase where
  RootCandidateInvariant : Bool
  TargetInvariant : Bool
  SourceInvariant : Bool
deriving DecidableEq, Repr

/-- The data members of a `Statistic<T>`: `m_ref_type` and `m_property_name`
inherited from `Variable<T>`, `m_stat_type`, and the pointer `m_sampling_condition`,
which may be null (`none`). -/
structure Statistic where
  m_ref_type : ReferenceType
  m_property_name : List String
  m_stat_type : StatisticType
  m_sampling_condition : Option ConditionBase
deriving DecidableEq, Repr

namespace Statistic

/-- Constructor `Statistic(property_name, stat_type, sampling_condition)`: the base is built
as `Variable<T>(ValueRef::NON_OBJECT_REFERENCE, property_name)`. -/
def new (property_name : List String) (stat_type : StatisticType)
    (sampling_condition : Option ConditionBase) : Statistic :=
  { m_ref_type := .NON_OBJECT_REFERENCE
    m_property_name := property_name
    m_stat_type := stat_type
    m_sampling_condition := sampling_condition }

/-- Method `Statistic<T>::RootCandidateInvariant`:
`Variable<T>::RootCandidateInvariant() && m_sampling_condition->RootCandidateInvariant()`.
The right operand of `&&` is reached only when the left one is true, and is then a
dereference of `m_sampling_condition`: `none` is the dereference of a null pointer. -/
def RootCandidateInvariant (s : Statistic) : Option Bool :=
  if Variable.RootCandidateInvariant s.m_ref_type then
    match s.m_sampling_condition with
    | some condition => some condition.RootCandidateInvariant
    | none => none
  else some false

/-- Method `Statistic<T>::LocalCandidateInvariant`: the sampling condition is not consulted. -/
def LocalCandidateInvariant (s : Statistic) : Bool :=
  Variable.LocalCandidateInvariant s.m_ref_type

/-- Method `Statistic<T>::TargetInvariant`. -/
def TargetInvariant (s : Statistic) : Option Bool :=
  if Variable.TargetInvariant s.m_ref_type then
    match s.m_sampling_condition with
    | some condition => some condition.TargetInvariant
    | none => none
  else some false

/-- Method `Statistic<T>::SourceInvariant`. -/
def SourceInvariant (s : Statistic) : Option Bool :=
  if Variable.SourceInvariant s.m_ref_type then
    match s.m_sampling_condition with
    | some condition => some condition.SourceInvariant
    | none => none
  else some false

/-- The `std::map<const UniverseObject*, int>` handed to `ReduceData`, as the list of
its entries in iteration order. -/
abbrev ObjectPropertyValues := List (UniverseObjectPtr × Int)

/-- The least value of an `int`, the `INT_MIN` of `<climits>`. -/
def INT_MIN : Int := -2147483648

/-- The greatest value of an `int`, the `INT_MAX` of `<climits>`. -/
def INT_MAX : Int := 2147483647

/-- The integer `x` is a value an `int` holds. -/
def InIntRange (x : Int) : Prop :=
  INT_MIN ≤ x ∧ x ≤ INT_MAX

instance (x : Int) : Decidable (InIntRange x) := by
  unfold InIntRange
  infer_instance

/-- The `int` a 32-bit two's-complement register holds for the exact arithmetic
result `x`: the value of the range of `int` that is congruent to `x` modulo `2^32`. -/
def int_wrap (x : Int) : Int :=
  (x + 2147483648) % 4294967296 - 2147483648

/-- The sum `a + b` of two `int`. -/
def int_add (a b : Int) : Int :=
  int_wrap (a + b)

/-- The difference `a - b` of two `int`. -/
def int_sub (a b : Int) : Int :=
  int_wrap (a - b)

/-- The product `a * b` of two `int`. -/
def int_mul (a b : Int) : Int :=
  int_wrap (a * b)

/-- The conversion `static_cast<int>(std::sqrt(static_cast<double>(x)))` of an `int`
`x`.  Every `int` is a `double` exactly; for a non-negative `x` the square root is
correctly rounded and the cast back truncates, which together give the integer square
root.  For a negative `x`, which an accumulator that has wrapped around can be,
`std::sqrt` returns a NaN, and the conversion of a NaN to `int` gives `INT_MIN`, the
result of the `cvttsd2si` instruction for an operand it cannot represent. -/
def sqrt_cast (x : Int) : Int :=
  if x < 0 then INT_MIN else (Nat.sqrt x.toNat : Nat)

/-- The lookup `histogram.find(property_value)` followed, when the key is absent, by
`histogram.insert(std::make_pair(property_value, 0))`, read through `hist_it->second`. -/
def histogram_find {T : Type} [DecidableEq T] (histogram : List (T × Nat))
    (property_value : T) : Nat :=
  match histogram.lookup property_value with
  | some num_seen => num_seen
  | none => 0

/-- The histogram after `num_seen++` on the entry of `property_value`. -/
def histogram_increment {T : Type} [DecidableEq T] (histogram : List (T × Nat))
    (property_value : T) : List (T × Nat) :=
  (property_value, histogram_find histogram property_value + 1) ::
    histogram.filter (fun entry => entry.1 != property_value)

/-- The state of the `MODE` scan: the histogram, the key under
`most_common_property_value_it` (`none` while the iterator is `histogram.begin()` of
the empty map, its initial value) and `max_seen`. -/
structure ModeState (T : Type) where
  histogram : List (T × Nat)
  most_common_property_value_it : Option T
  max_seen : Nat
deriving DecidableEq, Repr

/-- One iteration of the `MODE` loop body. -/
def mode_step {T : Type} [DecidableEq T] (st : ModeState T) (entry : UniverseObjectPtr × T) :
    ModeState T :=
  let property_value := entry.2
  let num_seen := histogram_find st.histogram property_value + 1
  let histogram := histogram_increment st.histogram property_value
  if num_seen > st.max_seen then
    { histogram := histogram, most_common_property_value_it := some property_value,
      max_seen := num_seen }
  else
    { histogram := histogram,
      most_common_property_value_it := st.most_common_property_value_it,
      max_seen := st.max_seen }

/-- The invariant of the `MODE` scan once the values `seen` have been scanned: the
histogram holds the number of occurrences of every value, `max_seen` bounds them all,
and the iterator, null before the first step, is afterwards on a value `mode` that
was the first to occur `max_seen` times: `seen` splits as `pre ++ mode :: post` where
that occurrence of `mode` is its `max_seen`-th and no value occurs `max_seen` times in
`pre`. -/
def ModeScanInvariant {T : Type} [DecidableEq T] (seen : List T) (st : ModeState T) : Prop :=
  (∀ value, histogram_find st.histogram value = seen.count value) ∧
  (∀ value, seen.count value ≤ st.max_seen) ∧
  (match st.most_common_property_value_it with
   | none => seen = [] ∧ st.max_seen = 0
   | some mode => ∃ pre post, seen = pre ++ mode :: post ∧ pre.count mode + 1 = st.max_seen ∧
      ∀ value, pre.count value < st.max_seen)

/-- Method `Statistic<T>::ReduceData` at `T = int`, for a node whose `m_stat_type` is the
first argument.  Each `for` loop over the map is a left fold over its entries.  The
quotient of an `int` by the positive number of entries needs no reduction: it is no
larger in absolute value than the dividend. -/
def ReduceData (m_stat_type : StatisticType) (object_property_values : ObjectPropertyValues) :
    Except EvalError Int :=
  match object_property_values with
  | [] => .ok 0
  | first :: _ =>
    match m_stat_type with
    | .COUNT => .ok (object_property_values.length : Nat)
    | .UNIQUE_COUNT =>
      let observed_values : List Int :=
        object_property_values.foldl (fun observed it => observed.insert it.2) []
      .ok (observed_values.length : Nat)
    | .IF => .ok 1
    | .SUM =>
      let accumulator : Int :=
        object_property_values.foldl (fun accumulator it => int_add accumulator it.2) 0
      .ok accumulator
    | .MEAN =>
      let accumulator : Int :=
        object_property_values.foldl (fun accumulator it => int_add accumulator it.2) 0
      .ok (accumulator.tdiv (object_property_values.length : Nat))
    | .RMS =>
      let accumulator : Int :=
        object_property_values.foldl
          (fun accumulator it => int_add accumulator (int_mul it.2 it.2)) 0
      let accumulator := accumulator.tdiv (object_property_values.length : Nat)
      .ok (sqrt_cast accumulator)
    | .MODE =>
      let final : ModeState Int := object_property_values.foldl mode_step
        { histogram := [], most_common_property_value_it := none, max_seen := 0 }
      match final.most_common_property_value_it with
      | some property_value => .ok property_value
      | none => .error .null_dereference
    | .MAX =>
      let max_it := object_property_values.foldl
        (fun max_it it => if it.2 > max_it.2 then it else max_it) first
      .ok max_it.2
    | .MIN =>
      let min_it := object_property_values.foldl
        (fun min_it it => if it.2 < min_it.2 then it else min_it) first
      .ok min_it.2
    | .SPREAD =>
      let its := object_property_values.foldl
        (fun (its : (UniverseObjectPtr × Int) × (UniverseObjectPtr × Int)) it =>
          (if it.2 > its.1.2 then it else its.1, if it.2 < its.2.2 then it else its.2))
        (first, first)
      .ok (int_sub its.1.2 its.2.2)
    | .STDEV =>
      if object_property_values.length < 2 then .ok 0
      else
        let accumulator : Int :=
          object_property_values.foldl (fun accumulator it => int_add accumulator it.2) 0
        let MEAN : Int := accumulator.tdiv (object_property_values.length : Nat)
        let accumulator : Int :=
          object_property_values.foldl
            (fun accumulator it =>
              int_add accumulator (int_mul (int_sub it.2 MEAN) (int_sub it.2 MEAN))) 0
        let MEAN_DEV2 : Int :=
          accumulator.tdiv (((object_property_values.length : Nat) : Int) - 1)
        .ok (sqrt_cast MEAN_DEV2)
    | .PRODUCT =>
      let accumulator : Int :=
        object_property_values.foldl (fun accumulator it => int_mul accumulator it.2) 1
      .ok accumulator
    | .INVALID_STATISTIC_TYPE =>
      .error (.runtime_error "ValueRef evaluated with an unknown or invalid StatisticType.")

/-! ### Sampling and the generic `Statistic<T>::Eval` -/

/-- Modelled from the spec: `Condition::ObjectSet` is declared in `Condition.h`, which
is not part of the sources; it is the ordered collection of matching objects a
sampling condition produces, here the list of its elements in iteration order. -/
abbrev ObjectSet := List UniverseObjectPtr

/-- The address a pointer compares by as a key of `std::map`: the null pointer is
lowest, the object at address `a` follows at `a + 1`. -/
def ptr_address : UniverseObjectPtr → Nat
  | none => 0
  | some a => a + 1

/-- The assignment `object_property_values[key] = value` on a `std::map` held as the
list of its entries in ascending key order: the entry of `key` is overwritten when
there is one and inserted at its place otherwise. -/
def map_assign {T : Type} (object_property_values : List (UniverseObjectPtr × T))
    (key : UniverseObjectPtr) (value : T) : List (UniverseObjectPtr × T) :=
  match object_property_values with
  | [] => [(key, value)]
  | entry :: rest =>
    if key = entry.1 then (key, value) :: rest
    else if ptr_address key < ptr_address entry.1 then (key, value) :: entry :: rest
    else entry :: map_assign rest key value

/-- Method `Statistic<T>::GetConditionMatches`: `condition_targets` is cleared, stays
empty when `condition` is null and is otherwise filled by `condition->Eval(context,
condition_targets)`.  The body of the virtual `ConditionBase::Eval` is outside the
sources, so it is the parameter `conditionEval`. -/
def GetConditionMatches {A : Type}
    (conditionEval : ConditionBase → ScriptingContext A → ObjectSet)
    (context : ScriptingContext A) (condition : Option ConditionBase) : ObjectSet :=
  match condition with
  | none => []
  | some condition => conditionEval condition context

/-- The `for` loop of `GetObjectPropertyValues` from the element `it` on: each step
calls `this->Variable<T>::Eval(ScriptingContext(context, *it))`, which reads the
node's current `m_ref_type` and `m_property_name`, and assigns the result into the
map.  An exception thrown by the call leaves the loop at once. -/
def sampling_loop {T A : Type}
    (variableEval : ReferenceType → List String → ScriptingContext A → Except EvalError T)
    (s : Statistic) (context : ScriptingContext A) :
    ObjectSet → List (UniverseObjectPtr × T) → Except EvalError (List (UniverseObjectPtr × T))
  | [], object_property_values => .ok object_property_values
  | it :: rest, object_property_values =>
    match variableEval s.m_ref_type s.m_property_name (ScriptingContext.nest context it) with
    | .error e => .error e
    | .ok property_value =>
      sampling_loop variableEval s context rest
        (map_assign object_property_values it property_value)

/-- Method `Statistic<T>::GetObjectPropertyValues`.  The node's `m_ref_type` is a
`mutable` member the method writes, so the node is threaded through: the result is
the node as the call leaves it together with the filled map, or with the exception
that escaped.  The assignment `this->m_ref_type = original_ref_type` stands after the
loop and is reached only when the loop ends without an exception. -/
def GetObjectPropertyValues {T A : Type}
    (variableEval : ReferenceType → List String → ScriptingContext A → Except EvalError T)
    (s : Statistic) (context : ScriptingContext A) (objects : ObjectSet) :
    Statistic × Except EvalError (List (UniverseObjectPtr × T)) :=
  let original_ref_type := s.m_ref_type
  let s := { s with m_ref_type := ReferenceType.CONDITION_LOCAL_CANDIDATE_REFERENCE }
  match sampling_loop variableEval s context objects [] with
  | .error e => (s, .error e)
  | .ok object_property_values =>
    ({ s with m_ref_type := original_ref_type }, .ok object_property_values)

/-- Method `Statistic<T>::Eval`, the generic template used for the result types
without a specialisation.  `T(-1)` is the conversion of `-1` to `T`.  The result is
the node as the call leaves it together with the value or the exception. -/
def Eval {T A : Type} [IntCast T] [DecidableEq T]
    (conditionEval : ConditionBase → ScriptingContext A → ObjectSet)
    (variableEval : ReferenceType → List String → ScriptingContext A → Except EvalError T)
    (s : Statistic) (context : ScriptingContext A) : Statistic × Except EvalError T :=
  if s.m_stat_type ≠ .MODE then
    (s, .error (.runtime_error
      "ValueRef evaluated with an invalid StatisticType for the return type."))
  else
    let condition_matches := GetConditionMatches conditionEval context s.m_sampling_condition
    if condition_matches.isEmpty then (s, .ok ((-1 : Int) : T))
    else
      match GetObjectPropertyValues variableEval s context condition_matches with
      | (s, .error e) => (s, .error e)
      | (s, .ok object_property_values) =>
        let final : ModeState T := object_property_values.foldl mode_step
          { histogram := [], most_common_property_value_it := none, max_seen := 0 }
        match final.most_common_property_value_it with
        | some property_value => (s, .ok property_value)
        | none => (s, .error .null_dereference)

/-- A property lookup in the shape `Variable<int>::Eval` has: it resolves the object
its reference type selects and fails when the slot is empty; of the object it knows
the property `ID`, which is the object's address, and fails on any other property. -/
def idLookup (m_ref_type : ReferenceType) (m_property_name : List String)
    (context : ScriptingContext Int) : Except EvalError Int :=
  match context.slot m_ref_type with
  | none => .error (.runtime_error "unresolvable reference")
  | some object =>
    if m_property_name.getLast? = some "ID" then .ok (object : Nat)
    else .error (.runtime_error "unknown property")

/-- A sampling condition that matches the objects `3`, `1` and `2`, whatever the
context is. -/
def threeObjectsCondition (condition : ConditionBase) (context : ScriptingContext Int) :
    ObjectSet :=
  [some 3, some 1, some 2]

end Statistic

/-! ## The sample standard deviation in exact arithmetic

The quantities of the specification of `STDEV`, over the rationals, against which
the integer computation of `ReduceData` is compared. -/

/-- The integer `k` is the square root of `q` truncated to an integer:
`0 ≤ k` and `k² ≤ q < (k + 1)²`. -/
def IsTruncatedSqrt (q : ℚ) (k : Int) : Prop :=
  0 ≤ k ∧ (k : ℚ) ^ 2 ≤ q ∧ q < ((k : ℚ) + 1) ^ 2

instance (q : ℚ) (k : Int) : Decidable (IsTruncatedSqrt q k) := by
  unfold IsTruncatedSqrt
  infer_instance

/-! ## Text renderings: Dump and Description -/

/-- The test `dynamic_cast<const Operation<T>*>(operand)` followed by `GetOpType()`:
the operator of the operand when the operand is an `Operation`, and `none` when the
cast gives a null pointer, which it does for any other node and for a null operand. -/
def operand_op_type {T : Type} : Option (ValueRefBase T) → Option OpType
  | some (.Operation m_op_type _ _) => some m_op_type
  | _ => none

/-- Whether `operand` is an `Operation` whose operator is one of `ops`. -/
def has_operator_in {T : Type} (ops : List OpType) (operand : ValueRefBase T) : Bool :=
  match operand with
  | .Operation m_op_type _ _ => ops.contains m_op_type
  | _ => false

namespace Operation

/-- The body of `Operation<T>::Dump` once the operands are looked at: `lhs` and `rhs`
are the results of the two `dynamic_cast`s, `dump1` and `dump2` what the calls
`m_operand1->Dump()` and `m_operand2->Dump()` give where the body makes them.  In the
`NEGATE` block an operand that is an `Operation` outside the six listed operators
leaves the block without returning, and the text below is executed. -/
def Dump (m_op_type : OpType) (lhs rhs : Option OpType)
    (dump1 dump2 : Except EvalError String) : Except EvalError String :=
  let negate_block : Option (Except EvalError String) :=
    if m_op_type == .NEGATE then
      match lhs with
      | some op_type =>
        if op_type == .PLUS || op_type == .MINUS ||
            op_type == .TIMES || op_type == .DIVIDE ||
            op_type == .NEGATE || op_type == .EXPONENTIATE then
          some (match dump1 with
            | .error e => .error e
            | .ok text => .ok ("-(" ++ text ++ ")"))
        else none
      | none =>
        some (match dump1 with
          | .error e => .error e
          | .ok text => .ok ("-" ++ text))
    else none
  match negate_block with
  | some returned => returned
  | none =>
    if m_op_type == .ABS then
      match dump1 with
      | .error e => .error e
      | .ok text => .ok ("abs(" ++ text ++ ")")
    else if m_op_type == .LOGARITHM then
      match dump1 with
      | .error e => .error e
      | .ok text => .ok ("log(" ++ text ++ ")")
    else if m_op_type == .SINE then
      match dump1 with
      | .error e => .error e
      | .ok text => .ok ("sin(" ++ text ++ ")")
    else if m_op_type == .COSINE then
      match dump1 with
      | .error e => .error e
      | .ok text => .ok ("cos(" ++ text ++ ")")
    else if m_op_type == .MINIMUM then
      match dump1 with
      | .error e => .error e
      | .ok text => .ok ("min(" ++ text ++ ", " ++ text ++ ")")
    else if m_op_type == .MAXIMUM then
      match dump1 with
      | .error e => .error e
      | .ok text => .ok ("max(" ++ text ++ ", " ++ text ++ ")")
    else if m_op_type == .RANDOM_UNIFORM then
      match dump1 with
      | .error e => .error e
      | .ok text => .ok ("random(" ++ text ++ ", " ++ text ++ ")")
    else
      let parenthesize_lhs : Bool :=
        match lhs with
        | some op_type =>
          (m_op_type == .EXPONENTIATE &&
            (op_type == .EXPONENTIATE || op_type == .TIMES || op_type == .DIVIDE ||
             op_type == .PLUS || op_type == .MINUS || op_type == .NEGATE)
          ) ||
          ((m_op_type == .TIMES || m_op_type == .DIVIDE) &&
            (op_type == .PLUS || op_type == .MINUS) || op_type == .NEGATE)
        | none => false
      let parenthesize_rhs : Bool :=
        match rhs with
        | some op_type =>
          (m_op_type == .EXPONENTIATE &&
            (op_type == .EXPONENTIATE || op_type == .TIMES || op_type == .DIVIDE ||
             op_type == .PLUS || op_type == .MINUS || op_type == .NEGATE)
          ) ||
          ((m_op_type == .TIMES || m_op_type == .DIVIDE) &&
            (op_type == .PLUS || op_type == .MINUS) || op_type == .NEGATE)
        | none => false
      match dump1 with
      | .error e => .error e
      | .ok text1 =>
        let retval : String := if parenthesize_lhs then "(" ++ text1 ++ ")" else text1
        let retval : String := retval ++
          (match m_op_type with
           | .PLUS => " + "
           | .MINUS => " - "
           | .TIMES => " * "
           | .DIVIDE => " / "
           | .EXPONENTIATE => " ^ "
           | _ => " ? ")
        match dump2 with
        | .error e => .error e
        | .ok text2 =>
          .ok (retval ++ (if parenthesize_rhs then "(" ++ text2 ++ ")" else text2))

/-- The body of `Operation<T>::Description` once the operands are looked at, with
`description1` and `description2` what `m_operand1->Description()` and
`m_operand2->Description()` give where the body calls them. -/
def Description (m_op_type : OpType) (lhs rhs : Option OpType)
    (description1 description2 : Except EvalError String) : Except EvalError String :=
  let negate_block : Option (Except EvalError String) :=
    if m_op_type == .NEGATE then
      match lhs with
      | some op_type =>
        if op_type == .PLUS || op_type == .MINUS ||
            op_type == .TIMES || op_type == .DIVIDE ||
            op_type == .NEGATE || op_type == .EXPONENTIATE then
          some (match description1 with
            | .error e => .error e
            | .ok text => .ok ("-(" ++ text ++ ")"))
        else none
      | none =>
        some (match description1 with
          | .error e => .error e
          | .ok text => .ok ("-" ++ text))
    else none
  match negate_block with
  | some returned => returned
  | none =>
    if m_op_type == .ABS then
      match description1 with
      | .error e => .error e
      | .ok text => .ok ("abs(" ++ text ++ ")")
    else if m_op_type == .LOGARITHM then
      match description1 with
      | .error e => .error e
      | .ok text => .ok ("log(" ++ text ++ ")")
    else if m_op_type == .SINE then
      match description1 with
      | .error e => .error e
      | .ok text => .ok ("sin(" ++ text ++ ")")
    else if m_op_type == .COSINE then
      match description1 with
      | .error e => .error e
      | .ok text => .ok ("cos(" ++ text ++ ")")
    else if m_op_type == .MINIMUM then
      match description1 with
      | .error e => .error e
      | .ok text => .ok ("min(" ++ text ++ ", " ++ text ++ ")")
    else if m_op_type == .MAXIMUM then
      match description1 with
      | .error e => .error e
      | .ok text => .ok ("max(" ++ text ++ ", " ++ text ++ ")")
    else if m_op_type == .RANDOM_UNIFORM then
      match description1 with
      | .error e => .error e
      | .ok text => .ok ("random(" ++ text ++ ", " ++ text ++ ")")
    else
      let parenthesize_lhs : Bool :=
        match lhs with
        | some op_type =>
          (m_op_type == .EXPONENTIATE &&
            (op_type == .EXPONENTIATE || op_type == .TIMES || op_type == .DIVIDE ||
             op_type == .PLUS || op_type == .MINUS || op_type == .NEGATE)
          ) ||
          ((m_op_type == .TIMES || m_op_type == .DIVIDE) &&
            (op_type == .PLUS || op_type == .MINUS) || op_type == .NEGATE)
        | none => false
      let parenthesize_rhs : Bool :=
        match rhs with
        | some op_type =>
          (m_op_type == .EXPONENTIATE &&
            (op_type == .EXPONENTIATE || op_type == .TIMES || op_type == .DIVIDE ||
             op_type == .PLUS || op_type == .MINUS || op_type == .NEGATE)
          ) ||
          ((m_op_type == .TIMES || m_op_type == .DIVIDE) &&
            (op_type == .PLUS || op_type == .MINUS) || op_type == .NEGATE)
        | none => false
      match description1 with
      | .error e => .error e
      | .ok text1 =>
        let retval : String := if parenthesize_lhs then "(" ++ text1 ++ ")" else text1
        let retval : String := retval ++
          (match m_op_type with
           | .PLUS => " + "
           | .MINUS => " - "
           | .TIMES => " * "
           | .DIVIDE => " / "
           | .EXPONENTIATE => " ^ "
           | _ => " ? ")
        match description2 with
        | .error e => .error e
        | .ok text2 =>
          .ok (retval ++ (if parenthesize_rhs then "(" ++ text2 ++ ")" else text2))

end Operation

namespace ValueRefBase

variable {T : Type}

mutual

/-- The virtual `Dump()`.  `Constant<T>::Dump` is a set of specialisations and
`Variable<T>::Dump` returns `ReconstructName(m_property_name, m_ref_type)`, both
defined outside the header: they are the parameters `constantDump` and
`ReconstructName`.  `Operation<T>::Dump` renders its operands and assembles them;
calling `Dump` through a null operand pointer is a null dereference. -/
def Dump (constantDump : T → String)
    (ReconstructName : List String → ReferenceType → String) :
    ValueRefBase T → Except EvalError String
  | .Constant m_value => .ok (constantDump m_value)
  | .Variable m_ref_type m_property_name => .ok (ReconstructName m_property_name m_ref_type)
  | .Operation m_op_type m_operand1 m_operand2 =>
    Operation.Dump m_op_type (operand_op_type m_operand1) (operand_op_type m_operand2)
      (DumpPtr constantDump ReconstructName m_operand1)
      (DumpPtr constantDump ReconstructName m_operand2)

/-- The call `m_operand->Dump()` through an operand pointer. -/
def DumpPtr (constantDump : T → String)
    (ReconstructName : List String → ReferenceType → String) :
    Option (ValueRefBase T) → Except EvalError String
  | none => .error .null_dereference
  | some operand => Dump constantDump ReconstructName operand

end

mutual

/-- The virtual `Description()`.  The descriptions of `Constant` and `Variable` are
built from `UserString`, `FlexibleFormat` and `lexical_cast`, which are outside the
sources: they are the parameters `constantDescription` and `variableDescription`. -/
def Description (constantDescription : T → String)
    (variableDescription : List String → ReferenceType → String) :
    ValueRefBase T → Except EvalError String
  | .Constant m_value => .ok (constantDescription m_value)
  | .Variable m_ref_type m_property_name => .ok (variableDescription m_property_name m_ref_type)
  | .Operation m_op_type m_operand1 m_operand2 =>
    Operation.Description m_op_type (operand_op_type m_operand1) (operand_op_type m_operand2)
      (DescriptionPtr constantDescription variableDescription m_operand1)
      (DescriptionPtr constantDescription variableDescription m_operand2)

/-- The call `m_operand->Description()` through an operand pointer. -/
def DescriptionPtr (constantDescription : T → String)
    (variableDescription : List String → ReferenceType → String) :
    Option (ValueRefBase T) → Except EvalError String
  | none => .error .null_dereference
  | some operand => Description constantDescription variableDescription operand

end

end ValueRefBase

/-- A `Constant<int>::Dump` for the examples: the digit of a value from `0` to `9`,
and `?` for any other value. -/
def digitDump (m_value : Int) : String :=
  match m_value with
  | 0 => "0"
  | 1 => "1"
  | 2 => "2"
  | 3 => "3"
  | 4 => "4"
  | 5 => "5"
  | 6 => "6"
  | 7 => "7"
  | 8 => "8"
  | 9 => "9"
  | _ => "?"

/-- A `ReconstructName` for the examples: the segments of the path joined by dots. -/
def dottedName (m_property_name : List String) (m_ref_type : ReferenceType) : String :=
  ".".intercalate m_property_name

/-! ## StaticCast and StringCast -/

/-- The data members of a `StaticCast<FromType, ToType>`: `m_ref_type` and
`m_property_name` inherited from `Variable<ToType>`, and the wrapped node
`m_value_ref`, which the constructor dereferences. -/
structure StaticCast (FromType ToType : Type) where
  m_ref_type : ReferenceType
  m_property_name : List String
  m_value_ref : ValueRefBase FromType

namespace StaticCast

variable {FromType ToType : Type}

/-- Constructor `StaticCast(const ValueRef::Variable<FromType>* value_ref)`: the base
is built from `value_ref->GetReferenceType()` and `value_ref->PropertyName()`. -/
def new (m_ref_type : ReferenceType) (m_property_name : List String) :
    StaticCast FromType ToType :=
  { m_ref_type := m_ref_type
    m_property_name := m_property_name
    m_value_ref := .Variable m_ref_type m_property_name }

/-- Method `StaticCast::RootCandidateInvariant`. -/
def RootCandidateInvariant (c : StaticCast FromType ToType) : Bool :=
  c.m_value_ref.RootCandidateInvariant

/-- Method `StaticCast::LocalCandidateInvariant`. -/
def LocalCandidateInvariant (c : StaticCast FromType ToType) : Bool :=
  c.m_value_ref.LocalCandidateInvariant

/-- Method `StaticCast::TargetInvariant`. -/
def TargetInvariant (c : StaticCast FromType ToType) : Bool :=
  c.m_value_ref.TargetInvariant

/-- Method `StaticCast::SourceInvariant`. -/
def SourceInvariant (c : StaticCast FromType ToType) : Bool :=
  c.m_value_ref.SourceInvariant

/-- Method `StaticCast::Description`. -/
def Description (constantDescription : FromType → String)
    (variableDescription : List String → ReferenceType → String)
    (c : StaticCast FromType ToType) : Except EvalError String :=
  c.m_value_ref.Description constantDescription variableDescription

/-- Method `StaticCast::Dump`. -/
def Dump (constantDump : FromType → String)
    (ReconstructName : List String → ReferenceType → String)
    (c : StaticCast FromType ToType) : Except EvalError String :=
  c.m_value_ref.Dump constantDump ReconstructName

end StaticCast

/-- The data members of a `StringCast<FromType>`: `m_ref_type` and `m_property_name`
inherited from `Variable<std::string>`, and the wrapped node `m_value_ref`. -/
structure StringCast (FromType : Type) where
  m_ref_type : ReferenceType
  m_property_name : List String
  m_value_ref : ValueRefBase FromType

namespace StringCast

variable {FromType : Type}

/-- Constructor `StringCast(const ValueRef::Variable<FromType>* value_ref)`. -/
def new (m_ref_type : ReferenceType) (m_property_name : List String) : StringCast FromType :=
  { m_ref_type := m_ref_type
    m_property_name := m_property_name
    m_value_ref := .Variable m_ref_type m_property_name }

/-- Method `StringCast::RootCandidateInvariant`. -/
def RootCandidateInvariant (c : StringCast FromType) : Bool :=
  c.m_value_ref.RootCandidateInvariant

/-- Method `StringCast::LocalCandidateInvariant`. -/
def LocalCandidateInvariant (c : StringCast FromType) : Bool :=
  c.m_value_ref.LocalCandidateInvariant

/-- Method `StringCast::TargetInvariant`. -/
def TargetInvariant (c : StringCast FromType) : Bool :=
  c.m_value_ref.TargetInvariant

/-- Method `StringCast::SourceInvariant`. -/
def SourceInvariant (c : StringCast FromType) : Bool :=
  c.m_value_ref.SourceInvariant

/-- Method `StringCast::Description`. -/
def Description (constantDescription : FromType → String)
    (variableDescription : List String → ReferenceType → String)
    (c : StringCast FromType) : Except EvalError String :=
  c.m_value_ref.Description constantDescription variableDescription

/-- Method `StringCast::Dump`. -/
def Dump (constantDump : FromType → String)
    (ReconstructName : List String → ReferenceType → String)
    (c : StringCast FromType) : Except EvalError String :=
  c.m_value_ref.Dump constantDump ReconstructName

end StringCast

/-! ## Equality of nodes -/

namespace ValueRefBase

variable {T : Type}

mutual

/-- The virtual `operator==` on two nodes.  Nodes of different dynamic type
(`typeid(rhs) != typeid(*this)`) are unequal; `Constant<T>::operator==` compares
`m_value`, `Variable<T>::operator==` compares `m_ref_type` and `m_property_name`, and
`Operation<T>::operator==` compares the first operands and then the second operands,
and nothing else.  The shortcut `&rhs == this` returns true, which is also what the
comparison of a node with itself computes member by member. -/
def operator_eq [DecidableEq T] : ValueRefBase T → ValueRefBase T → Bool
  | .Constant m_value, .Constant rhs_m_value => m_value == rhs_m_value
  | .Variable m_ref_type m_property_name, .Variable rhs_m_ref_type rhs_m_property_name =>
    (m_ref_type == rhs_m_ref_type) && (m_property_name == rhs_m_property_name)
  | .Operation _ m_operand1 m_operand2, .Operation _ rhs_m_operand1 rhs_m_operand2 =>
    if !(operand_eq m_operand1 rhs_m_operand1) then false
    else if !(operand_eq m_operand2 rhs_m_operand2) then false
    else true
  | _, _ => false

/-- The comparison of two operand pointers in `Operation<T>::operator==`: equal
pointers, which two distinct nodes owning their operands have only when both are
null, are accepted; one null pointer is a difference; otherwise the pointed nodes
are compared with `operator!=`, the negation of the virtual `operator==`. -/
def operand_eq [DecidableEq T] : Option (ValueRefBase T) → Option (ValueRefBase T) → Bool
  | none, none => true
  | some operand, some rhs_operand => operator_eq operand rhs_operand
  | _, _ => false

end

end ValueRefBase

/-! ## Construction and evaluation of a Variable -/

/-- Modelled from the spec: the constant `Source_name` is declared in `Names.h`, which
is not part of the sources; it is the first path segment `Source`. -/
def Source_name : String := "Source"

/-- Modelled from the spec: the constant `Target_name` of `Names.h`: the segment
`Target`. -/
def Target_name : String := "Target"

/-- Modelled from the spec: the constant `Value_name` of `Names.h`: the segment
`Value`. -/
def Value_name : String := "Value"

/-- Modelled from the spec: the constant `LocalCandidate_name` of `Names.h`: the
segment `LocalCandidate`. -/
def LocalCandidate_name : String := "LocalCandidate"

/-- Modelled from the spec: the constant `RootCandidate_name` of `Names.h`: the
segment `RootCandidate`. -/
def RootCandidate_name : String := "RootCandidate"

/-- Constructor `Variable(const std::vector<adobe::name_t>& property_name)`: the
reference type is read off `property_name.front()`.  On an empty path the assertion
`!property_name.empty()` fails, which is `none`. -/
def Variable.new {T : Type} (property_name : List String) : Option (ValueRefBase T) :=
  match property_name with
  | [] => none
  | ref_type_name :: _ =>
    let m_ref_type : ReferenceType :=
      if ref_type_name = Source_name then .SOURCE_REFERENCE
      else if ref_type_name = Value_name ∨ ref_type_name = Target_name then
        .EFFECT_TARGET_REFERENCE
      else if ref_type_name = LocalCandidate_name then .CONDITION_LOCAL_CANDIDATE_REFERENCE
      else if ref_type_name = RootCandidate_name then .CONDITION_ROOT_CANDIDATE_REFERENCE
      else .NON_OBJECT_REFERENCE
    some (.Variable m_ref_type property_name)

/-- The error of an evaluation whose tagged object is absent from the context. -/
def unresolvable_reference : EvalError :=
  .runtime_error "unresolvable reference"

/-- Modelled from the spec: the bodies of `Variable<T>::Eval` are specialisations
defined outside the sources.  By section 4.3 of the specification `Eval` resolves the
tagged object from the context, an absent reference being an error, and then looks
up the named property on it, which is delegated to the object-graph collaborator
(the parameter `propertyLookup`); a path whose single segment is the literal `Value`
instead returns the current value of the context reinterpreted as `T` (the parameter
`any_cast`), independent of any object. -/
def Variable.Eval {T A : Type}
    (propertyLookup : Nat → List String → Except EvalError T)
    (any_cast : Option A → Except EvalError T)
    (m_ref_type : ReferenceType) (m_property_name : List String)
    (context : ScriptingContext A) : Except EvalError T :=
  if m_property_name = [Value_name] then any_cast context.current_value
  else
    match context.slot m_ref_type with
    | none => .error unresolvable_reference
    | some object => propertyLookup object m_property_name

/-- An object-graph lookup for the examples: every object has the property `ID`,
which is its address, and no other property. -/
def idProperty (object : Nat) (m_property_name : List String) : Except EvalError Int :=
  if m_property_name.getLast? = some "ID" then .ok (object : Nat)
  else .error (.runtime_error "unknown property")

/-- The reading of a current value that holds an `int`: an empty `boost::any` cannot
be cast. -/
def intFromAny (current_value : Option Int) : Except EvalError Int :=
  match current_value with
  | some value => .ok value
  | none => .error (.runtime_error "bad any_cast")

/-! ## Equality of Statistic nodes, ConstantExpr, mean of squares -/

/-- Method `Statistic<T>::operator==` on two `Statistic<T>` nodes, which pass the
`typeid` test: `m_stat_type` is compared, then the sampling conditions, and nothing
else.  Sampling conditions held by equal pointers, in particular two null pointers,
are accepted, one null pointer is a difference, and otherwise the conditions are
compared with the `operator!=` of `ConditionBase`, which is outside the sources: the
parameter `condition_eq` is its negation. -/
def Statistic.operator_eq (condition_eq : ConditionBase → ConditionBase → Bool)
    (s rhs : Statistic) : Bool :=
  if s.m_stat_type != rhs.m_stat_type then false
  else
    match s.m_sampling_condition, rhs.m_sampling_condition with
    | none, none => true
    | some condition, some rhs_condition =>
      if !(condition_eq condition rhs_condition) then false else true
    | _, _ => false

namespace ValueRefBase

variable {T : Type}

mutual

/-- Function `ValueRef::ConstantExpr(const ValueRefBase<T>* expr)` on a non-null
`expr`: a `Constant` gives true, a `Variable` false, and an `Operation` the
conjunction `ConstantExpr(op->LHS()) && ConstantExpr(op->RHS())`, whose right side is
evaluated only when the left side is true.  The result `none` is the failure of the
assertion `assert(expr)`. -/
def ConstantExpr : ValueRefBase T → Option Bool
  | .Constant _ => some true
  | .Variable _ _ => some false
  | .Operation _ m_operand1 m_operand2 =>
    match ConstantExprPtr m_operand1 with
    | none => none
    | some false => some false
    | some true => ConstantExprPtr m_operand2

/-- The call `ConstantExpr(expr)` on a pointer: `assert(expr)` fails on a null pointer. -/
def ConstantExprPtr : Option (ValueRefBase T) → Option Bool
  | none => none
  | some expr => ConstantExpr expr

end

end ValueRefBase

/-- The mean of the squares of integer values as the specification of `RMS` words it,
in exact rational arithmetic: the sum of the squared values divided by their number. -/
def meanOfSquares (values : List Int) : ℚ :=
  ((values.map (fun (x : Int) => x * x)).sum : ℚ) / (values.length : ℚ)

end ValueRef

/-! # MovableEnvelope (parse/MovableEnvelope.h) -/

namespace parse.detail

/-- The data members of a `MovableEnvelope<T>`: the owning `std::unique_ptr<T> obj`
and the raw pointer `original_obj`, each the address of an object or null (`none`).
Both members are `mutable`, so the methods below return the envelopes as they
leave them. -/
structure MovableEnvelope where
  obj : Option Nat
  original_obj : Option Nat
deriving DecidableEq, Repr

namespace MovableEnvelope

/-- The text of `OpenedMoreThanOnce::what()`. -/
def OpenedMoreThanOnce : String :=
  "The parser attempted to extract the unique_ptr from a MovableEnvelope more than once. " ++
  "Until boost::spirit supports move semantics MovableEnvelope requires that " ++
  "unique_ptr be used only once. " ++
  "Check that set, map or vector parses are not repeatedly extracting the same unique_ptr<T>."

/-- Constructor `MovableEnvelope()`, and `MovableEnvelope(std::nullptr_t)`: both
members keep their default member initialiser `nullptr`. -/
def nullptr : MovableEnvelope :=
  { obj := none, original_obj := none }

/-- Constructor `explicit MovableEnvelope(std::unique_ptr<U>&& obj_)`, and likewise
`explicit MovableEnvelope(U* obj_)`: `obj` takes the pointer and `original_obj` is
`obj.get()`. -/
def new (obj_ : Option Nat) : MovableEnvelope :=
  { obj := obj_, original_obj := obj_ }

/-- Copy constructor `MovableEnvelope(const MovableEnvelope& other)`, which delegates
to `MovableEnvelope(std::move(other.obj))`: the result is the new envelope and
`other` as the move leaves it, with a null `obj`.  The move constructor has the same
body. -/
def copy_construct (other : MovableEnvelope) : MovableEnvelope × MovableEnvelope :=
  (new other.obj, { other with obj := none })

/-- Copy operator `operator= (const MovableEnvelope& other)` on an envelope `self`
distinct from `other`: `obj = std::move(other.obj); original_obj =
other.original_obj;`.  The result is `self` and `other` as the assignment leaves
them.  The move operator has the same body. -/
def copy_assign (self other : MovableEnvelope) : MovableEnvelope × MovableEnvelope :=
  ({ obj := other.obj, original_obj := other.original_obj }, { other with obj := none })

/-- Method `IsEmptiedEnvelope`: `original_obj != obj.get()`. -/
def IsEmptiedEnvelope (e : MovableEnvelope) : Bool :=
  e.original_obj != e.obj

/-- What a call of `OpenEnvelope` leaves: the returned `unique_ptr`, the referenced
`pass`, the envelope, and what was written to `ErrorLogger()`. -/
structure Opened where
  returned : Option Nat
  pass : Bool
  envelope : MovableEnvelope
  logged : List String
deriving DecidableEq, Repr

/-- Method `OpenEnvelope(bool& pass)`: on an emptied envelope the text of
`OpenedMoreThanOnce` is logged and `pass` is set to false, the statement `throw err;`
being commented out; in every case `std::move(obj)` is returned, which leaves `obj`
null. -/
def OpenEnvelope (e : MovableEnvelope) (pass : Bool) : Opened :=
  if e.IsEmptiedEnvelope then
    { returned := e.obj, pass := false, envelope := { e with obj := none },
      logged := [OpenedMoreThanOnce] }
  else
    { returned := e.obj, pass := pass, envelope := { e with obj := none }, logged := [] }

/-- The states the constructors and operators lead to: the envelope still holds the
object it was made for, or it holds nothing. -/
def WellFormed (e : MovableEnvelope) : Prop :=
  e.obj = e.original_obj ∨ e.obj = none

end MovableEnvelope

end parse.detail

/-! # Theorems -/

namespace ValueRef

open ScriptingContext Statistic

/-! ## Context nesting -/

/-- C1: the nesting constructor keeps `source`, `effect_target` and
`current_value` of the parent, makes the new candidate the local candidate, and
takes as root candidate the parent's root candidate when the parent has one and
the new candidate otherwise. -/
theorem nest_fields {A : Type} (parent : ScriptingContext A) (c : UniverseObjectPtr) :
    (nest parent c).source = parent.source ∧
    (nest parent c).effect_target = parent.effect_target ∧
    (nest parent c).current_value = parent.current_value ∧
    (nest parent c).condition_local_candidate = c ∧
    (nest parent c).condition_root_candidate =
      (match parent.condition_root_candidate with
       | some root => some root
       | none => c) := by
  refine ⟨rfl, rfl, rfl, rfl, ?_⟩
  cases h : parent.condition_root_candidate <;> simp [nest, h]

/-- Once a context has a root candidate, no further nesting changes it. -/
theorem nestAll_root_of_some {A : Type} (cs : List UniverseObjectPtr) (p : ScriptingContext A)
    (r : Nat) (h : p.condition_root_candidate = some r) :
    (nestAll p cs).condition_root_candidate = some r := by
  induction cs generalizing p with
  | nil => simpa [nestAll] using h
  | cons c cs ih =>
    have hn : (nest p c).condition_root_candidate = some r := by simp [nest, h]
    simpa [nestAll] using ih (nest p c) hn

/-- The local candidate after nesting a non-empty chain is the last candidate. -/
theorem nestAll_local_eq_getLast {A : Type} (cs : List UniverseObjectPtr)
    (p : ScriptingContext A) (hne : cs ≠ []) :
    (nestAll p cs).condition_local_candidate = cs.getLast hne := by
  induction cs generalizing p with
  | nil => exact absurd rfl hne
  | cons c cs ih =>
    cases cs with
    | nil => simp [nestAll, nest]
    | cons d ds =>
      have := ih (nest p c) (by simp)
      simpa [nestAll] using this

/-- C2: starting from a context without a root candidate, nesting the present
candidates `c1, ..., cn` one after the other gives a context whose root candidate is
`c1` and whose local candidate is `cn`; for the chain `root, a, b` the innermost root
candidate is `root`. -/
theorem nestAll_root_is_first {A : Type} (p : ScriptingContext A)
    (hroot : p.condition_root_candidate = none) (c1 : Nat) (cs : List Nat) :
    (nestAll p ((c1 :: cs).map some)).condition_root_candidate = some c1 ∧
    (nestAll p ((c1 :: cs).map some)).condition_local_candidate =
      some ((c1 :: cs).getLast (List.cons_ne_nil c1 cs)) ∧
    (∀ root a b : Nat,
      (nest (nest (nest p (some root)) (some a)) (some b)).condition_root_candidate =
        some root) := by
  refine ⟨?_, ?_, ?_⟩
  · have hn : (nest p (some c1)).condition_root_candidate = some c1 := by simp [nest, hroot]
    simpa [nestAll] using nestAll_root_of_some (cs.map some) (nest p (some c1)) c1 hn
  · rw [nestAll_local_eq_getLast ((c1 :: cs).map some) p (by simp)]
    exact List.getLast_map some (c1 :: cs) (by simp)
  · intro root a b
    simp [nest, hroot]

/-- C2, at a concrete chain: from the empty context, nesting the candidates
`7, 8, 9` leaves `7` as root candidate and `9` as local candidate. -/
theorem nestAll_root_is_first_witness :
    (ScriptingContext.empty : ScriptingContext Int).condition_root_candidate = none ∧
    (nestAll (ScriptingContext.empty : ScriptingContext Int)
      ([7, 8, 9].map some)).condition_root_candidate = some 7 ∧
    (nestAll (ScriptingContext.empty : ScriptingContext Int)
      ([7, 8, 9].map some)).condition_local_candidate = some 9 :=
  ⟨rfl, (nestAll_root_is_first ScriptingContext.empty rfl 7 [8, 9]).1,
    (nestAll_root_is_first ScriptingContext.empty rfl 7 [8, 9]).2.1⟩

/-! ## Constant, Variable, Operation -/

/-- C3: a `Constant` holding `v` evaluates to `v` in every context, whatever the
property lookup is, and its four invariance predicates are true. -/
theorem constant_eval_and_invariants {T A : Type} [Add T] [Sub T] (v : T)
    (variableEval : ReferenceType → List String → ScriptingContext A → Except EvalError T)
    (context : ScriptingContext A) :
    ValueRefBase.Eval variableEval context (.Constant v) = .ok v ∧
    (ValueRefBase.Constant v).RootCandidateInvariant = true ∧
    (ValueRefBase.Constant v).LocalCandidateInvariant = true ∧
    (ValueRefBase.Constant v).TargetInvariant = true ∧
    (ValueRefBase.Constant v).SourceInvariant = true :=
  ⟨rfl, rfl, rfl, rfl, rfl⟩

/-- C4: a `Variable` whose reference type names an object slot is non-invariant
on the axis of that slot and invariant on the other three; a `Variable` with
`NON_OBJECT_REFERENCE` is invariant on all four axes. -/
theorem variable_invariants {T : Type} (name : List String) :
    ((ValueRefBase.Variable .SOURCE_REFERENCE name : ValueRefBase T).SourceInvariant = false ∧
     (ValueRefBase.Variable .SOURCE_REFERENCE name : ValueRefBase T).TargetInvariant = true ∧
     (ValueRefBase.Variable .SOURCE_REFERENCE name : ValueRefBase T).LocalCandidateInvariant
        = true ∧
     (ValueRefBase.Variable .SOURCE_REFERENCE name : ValueRefBase T).RootCandidateInvariant
        = true) ∧
    ((ValueRefBase.Variable .EFFECT_TARGET_REFERENCE name : ValueRefBase T).SourceInvariant
        = true ∧
     (ValueRefBase.Variable .EFFECT_TARGET_REFERENCE name : ValueRefBase T).TargetInvariant
        = false ∧
     (ValueRefBase.Variable .EFFECT_TARGET_REFERENCE name :
        ValueRefBase T).LocalCandidateInvariant = true ∧
     (ValueRefBase.Variable .EFFECT_TARGET_REFERENCE name :
        ValueRefBase T).RootCandidateInvariant = true) ∧
    ((ValueRefBase.Variable .CONDITION_LOCAL_CANDIDATE_REFERENCE name :
        ValueRefBase T).SourceInvariant = true ∧
     (ValueRefBase.Variable .CONDITION_LOCAL_CANDIDATE_REFERENCE name :
        ValueRefBase T).TargetInvariant = true ∧
     (ValueRefBase.Variable .CONDITION_LOCAL_CANDIDATE_REFERENCE name :
        ValueRefBase T).LocalCandidateInvariant = false ∧
     (ValueRefBase.Variable .CONDITION_LOCAL_CANDIDATE_REFERENCE name :
        ValueRefBase T).RootCandidateInvariant = true) ∧
    ((ValueRefBase.Variable .CONDITION_ROOT_CANDIDATE_REFERENCE name :
        ValueRefBase T).SourceInvariant = true ∧
     (ValueRefBase.Variable .CONDITION_ROOT_CANDIDATE_REFERENCE name :
        ValueRefBase T).TargetInvariant = true ∧
     (ValueRefBase.Variable .CONDITION_ROOT_CANDIDATE_REFERENCE name :
        ValueRefBase T).LocalCandidateInvariant = true ∧
     (ValueRefBase.Variable .CONDITION_ROOT_CANDIDATE_REFERENCE name :
        ValueRefBase T).RootCandidateInvariant = false) ∧
    ((ValueRefBase.Variable .NON_OBJECT_REFERENCE name : ValueRefBase T).SourceInvariant
        = true ∧
     (ValueRefBase.Variable .NON_OBJECT_REFERENCE name : ValueRefBase T).TargetInvariant
        = true ∧
     (ValueRefBase.Variable .NON_OBJECT_REFERENCE name : ValueRefBase T).LocalCandidateInvariant
        = true ∧
     (ValueRefBase.Variable .NON_OBJECT_REFERENCE name : ValueRefBase T).RootCandidateInvariant
        = true) := by
  refine ⟨⟨?_, ?_, ?_, ?_⟩, ⟨?_, ?_, ?_, ?_⟩, ⟨?_, ?_, ?_, ?_⟩, ⟨?_, ?_, ?_, ?_⟩,
    ⟨?_, ?_, ?_, ?_⟩⟩ <;> rfl

/-- The invariance predicate of an `Operation` on one axis is the conjunction of the
predicate over the operands that are present. -/
theorem invariantOn_operation {T : Type} (axis : Axis) (op : OpType)
    (a b : Option (ValueRefBase T)) :
    (ValueRefBase.Operation op a b).InvariantOn axis =
      (a.all (ValueRefBase.InvariantOn axis) && b.all (ValueRefBase.InvariantOn axis)) := by
  cases axis <;> cases a <;> cases b <;>
    simp [ValueRefBase.InvariantOn, ValueRefBase.RootCandidateInvariant,
      ValueRefBase.LocalCandidateInvariant, ValueRefBase.TargetInvariant,
      ValueRefBase.SourceInvariant, Option.all]

/-- C5: on each of the four axes the invariance predicate of an `Operation` is
the conjunction of the same predicate over its present operands; for a binary
operation with operands `x` and `y` it is the conjunction of theirs, and for a unary
operation with operand `x` it is that of `x`. -/
theorem operation_invariants_conjunction {T : Type} (axis : Axis) (op : OpType)
    (a b : Option (ValueRefBase T)) (x y : ValueRefBase T) :
    (ValueRefBase.Operation op a b).InvariantOn axis =
      (a.all (ValueRefBase.InvariantOn axis) && b.all (ValueRefBase.InvariantOn axis)) ∧
    (Operation.binary op (some x) (some y)).InvariantOn axis =
      (x.InvariantOn axis && y.InvariantOn axis) ∧
    (Operation.unary op (some x)).InvariantOn axis = x.InvariantOn axis := by
  refine ⟨invariantOn_operation axis op a b, ?_, ?_⟩
  · simp [Operation.binary, invariantOn_operation, Option.all]
  · simp [Operation.unary, invariantOn_operation, Option.all]

/-- A `Variable` that is invariant on an axis selects a slot on which two contexts
agreeing outside that axis agree. -/
theorem slot_eq_of_agreeExcept {A : Type} (T : Type) (axis : Axis) (r : ReferenceType)
    (name : List String) (c1 c2 : ScriptingContext A) (hagree : AgreeExcept axis c1 c2)
    (hinv : (ValueRefBase.Variable r name : ValueRefBase T).InvariantOn axis = true) :
    slot r c1 = slot r c2 := by
  obtain ⟨hs, ht, hr, hl, _⟩ := hagree
  cases axis <;> cases r <;>
    simp_all [slot, ValueRefBase.InvariantOn, ValueRefBase.RootCandidateInvariant,
      ValueRefBase.LocalCandidateInvariant, ValueRefBase.TargetInvariant,
      ValueRefBase.SourceInvariant, Variable.RootCandidateInvariant,
      Variable.LocalCandidateInvariant, Variable.TargetInvariant, Variable.SourceInvariant]

/-- Evaluation of a tree that is invariant on an axis does not tell apart two
contexts that agree outside that axis; by recursion on the tree. -/
theorem eval_eq_of_invariantOn {T A : Type} [Add T] [Sub T]
    (variableEval : ReferenceType → List String → ScriptingContext A → Except EvalError T)
    (hread : ReadsOnlySelectedSlot variableEval) (axis : Axis)
    (c1 c2 : ScriptingContext A) (hagree : AgreeExcept axis c1 c2) :
    ∀ e : ValueRefBase T, e.InvariantOn axis = true →
      ValueRefBase.Eval variableEval c1 e = ValueRefBase.Eval variableEval c2 e
  | .Constant _, _ => rfl
  | .Variable r name, h => by
    have hslot : slot r c1 = slot r c2 := slot_eq_of_agreeExcept T axis r name c1 c2 hagree h
    simpa [ValueRefBase.Eval] using hread r name c1 c2 hslot hagree.2.2.2.2
  | .Operation op a b, h => by
    rw [invariantOn_operation, Bool.and_eq_true] at h
    have ha : ValueRefBase.EvalPtr variableEval c1 a = ValueRefBase.EvalPtr variableEval c2 a := by
      cases a with
      | none => rfl
      | some x =>
        simpa [ValueRefBase.EvalPtr] using
          eval_eq_of_invariantOn variableEval hread axis c1 c2 hagree x
            (by simpa [Option.all] using h.1)
    have hb : ValueRefBase.EvalPtr variableEval c1 b = ValueRefBase.EvalPtr variableEval c2 b := by
      cases b with
      | none => rfl
      | some y =>
        simpa [ValueRefBase.EvalPtr] using
          eval_eq_of_invariantOn variableEval hread axis c1 c2 hagree y
            (by simpa [Option.all] using h.2)
    cases op <;> simp [ValueRefBase.Eval, ha, hb]

/-- C6: the invariance flags are sound.  When the property lookup reads only the
slot selected by the reference type and the current value, a tree of `Constant`,
`Variable` and `Operation` nodes whose invariance predicate for an axis is true
evaluates to the same value, or to the same error, in any two contexts that agree on
every field except the slot of that axis. -/
theorem invariance_flags_sound {T A : Type} [Add T] [Sub T]
    (variableEval : ReferenceType → List String → ScriptingContext A → Except EvalError T)
    (hread : ReadsOnlySelectedSlot variableEval) (axis : Axis) (e : ValueRefBase T)
    (hinv : e.InvariantOn axis = true) (c1 c2 : ScriptingContext A)
    (hagree : AgreeExcept axis c1 c2) :
    ValueRefBase.Eval variableEval c1 e = ValueRefBase.Eval variableEval c2 e :=
  eval_eq_of_invariantOn variableEval hread axis c1 c2 hagree e hinv

/-- The address lookup reads only the selected slot and the current value. -/
theorem addressLookup_readsOnlySelectedSlot : ReadsOnlySelectedSlot addressLookup := by
  intro r name c1 c2 hslot hvalue
  cases r <;> simp_all [addressLookup]

/-- C6, at a concrete tree: `Source.ID + 1` is invariant on the local-candidate
axis, and two contexts with source `5` that differ in their local candidate
(`8` and `9`) both evaluate it to `6`. -/
theorem invariance_flags_sound_witness :
    ReadsOnlySelectedSlot addressLookup ∧
    sourceIdPlusOne.InvariantOn .LocalCandidate = true ∧
    AgreeExcept .LocalCandidate (sourceFiveContext (some 8)) (sourceFiveContext (some 9)) ∧
    ValueRefBase.Eval addressLookup (sourceFiveContext (some 8)) sourceIdPlusOne =
      ValueRefBase.Eval addressLookup (sourceFiveContext (some 9)) sourceIdPlusOne ∧
    ValueRefBase.Eval addressLookup (sourceFiveContext (some 9)) sourceIdPlusOne = .ok 6 :=
  ⟨addressLookup_readsOnlySelectedSlot, rfl, by simp [AgreeExcept, sourceFiveContext],
    invariance_flags_sound addressLookup addressLookup_readsOnlySelectedSlot .LocalCandidate
      sourceIdPlusOne rfl (sourceFiveContext (some 8)) (sourceFiveContext (some 9))
      (by simp [AgreeExcept, sourceFiveContext]),
    rfl⟩

/-! ## Statistic -/

/-- C7: a `Statistic` built by its constructor carries `NON_OBJECT_REFERENCE` and
is local-candidate invariant whatever its sampling condition; for a node with
sampling condition `c`, each of `RootCandidateInvariant`, `TargetInvariant` and
`SourceInvariant` is the conjunction of the inherited `Variable` predicate and the
predicate of `c` for that axis, which for a constructed node is the predicate of `c`. -/
theorem statistic_invariants (r : ReferenceType) (name : List String) (stat : StatisticType)
    (cond : Option ConditionBase) (c : ConditionBase) :
    (Statistic.new name stat cond).m_ref_type = .NON_OBJECT_REFERENCE ∧
    (Statistic.new name stat cond).LocalCandidateInvariant = true ∧
    (Statistic.mk r name stat (some c)).RootCandidateInvariant =
      some (Variable.RootCandidateInvariant r && c.RootCandidateInvariant) ∧
    (Statistic.mk r name stat (some c)).TargetInvariant =
      some (Variable.TargetInvariant r && c.TargetInvariant) ∧
    (Statistic.mk r name stat (some c)).SourceInvariant =
      some (Variable.SourceInvariant r && c.SourceInvariant) ∧
    (Statistic.new name stat (some c)).RootCandidateInvariant = some c.RootCandidateInvariant ∧
    (Statistic.new name stat (some c)).TargetInvariant = some c.TargetInvariant ∧
    (Statistic.new name stat (some c)).SourceInvariant = some c.SourceInvariant := by
  refine ⟨rfl, rfl, ?_, ?_, ?_, rfl, rfl, rfl⟩
  · cases h : Variable.RootCandidateInvariant r <;> simp [Statistic.RootCandidateInvariant, h]
  · cases h : Variable.TargetInvariant r <;> simp [Statistic.TargetInvariant, h]
  · cases h : Variable.SourceInvariant r <;> simp [Statistic.SourceInvariant, h]

/-- A value of the range of `int` is its own reduction. -/
theorem int_wrap_of_inIntRange (x : Int) (h : InIntRange x) : int_wrap x = x := by
  unfold InIntRange INT_MIN INT_MAX at h
  unfold int_wrap
  omega

/-- The reduction of any integer is a value of the range of `int`. -/
theorem inIntRange_int_wrap (x : Int) : InIntRange (int_wrap x) := by
  unfold InIntRange INT_MIN INT_MAX int_wrap
  omega

/-- The reduction of an integer is congruent to it modulo `2^32`. -/
theorem int_wrap_modEq (x : Int) : int_wrap x ≡ x [ZMOD 4294967296] := by
  unfold Int.ModEq int_wrap
  omega

/-- Integers congruent modulo `2^32` have the same reduction. -/
theorem int_wrap_congr {a b : Int} (h : a ≡ b [ZMOD 4294967296]) :
    int_wrap a = int_wrap b := by
  unfold Int.ModEq at h
  unfold int_wrap
  omega

/-- An accumulation loop `accumulator += g(it->second)` in `int` arithmetic, started
from an `int`, ends on the reduction of the starting value plus the exact sum of the
terms, where each term may be replaced by one congruent to it modulo `2^32`. -/
theorem foldl_int_add (g h : Int → Int) (hg : ∀ x, g x ≡ h x [ZMOD 4294967296])
    (m : ObjectPropertyValues) (start : Int) (hs : InIntRange start) :
    m.foldl (fun accumulator it => int_add accumulator (g it.2)) start =
      int_wrap (start + ((m.map Prod.snd).map h).sum) := by
  induction m generalizing start with
  | nil => simp [int_wrap_of_inIntRange start hs]
  | cons entry rest ih =>
    simp only [List.foldl_cons, List.map_cons, List.sum_cons]
    rw [ih (int_add start (g entry.2)) (inIntRange_int_wrap _)]
    apply int_wrap_congr
    have h1 : int_add start (g entry.2) ≡ start + h entry.2 [ZMOD 4294967296] :=
      (int_wrap_modEq (start + g entry.2)).trans ((hg entry.2).add_left start)
    have h2 := h1.add_right (((rest.map Prod.snd).map h).sum)
    rw [add_assoc] at h2
    exact h2

/-- The accumulation loop `accumulator += it->second` from `0` ends on the reduction
of the exact sum of the property values. -/
theorem foldl_int_add_eq_sum (m : ObjectPropertyValues) :
    m.foldl (fun accumulator it => int_add accumulator it.2) 0 =
      int_wrap (m.map Prod.snd).sum := by
  have key := foldl_int_add (fun x => x) (fun x => x) (fun x => Int.ModEq.refl x) m 0
    (by decide)
  simpa using key

/-- C8: the `COUNT` reduction of a collection returns the number of its entries,
whatever the property values are, and returns `0` for the empty collection. -/
theorem count_reduction (m : ObjectPropertyValues) :
    ReduceData .COUNT m = .ok (m.length : Nat) ∧ ReduceData .COUNT [] = .ok 0 := by
  refine ⟨?_, rfl⟩
  cases m <;> simp [ReduceData]

/-- C9 (as stated) fails on the values `2147483647, 1`: both are values of `int`,
their sum `2147483648` is not, and the `SUM` reduction returns `-2147483648` and the
`MEAN` reduction `-1073741824` instead of the sum and of its half. -/
theorem sum_of_large_values_wraps :
    InIntRange 2147483647 ∧ InIntRange 1 ∧
    ([2147483647, 1] : List Int).sum = 2147483648 ∧
    ReduceData .SUM [(some 1, 2147483647), (some 2, 1)] = .ok (-2147483648) ∧
    ReduceData .MEAN [(some 1, 2147483647), (some 2, 1)] = .ok (-1073741824) ∧
    ReduceData .SUM [(some 1, 2147483647), (some 2, 1)] ≠
      .ok ([2147483647, 1] : List Int).sum ∧
    ReduceData .MEAN [(some 1, 2147483647), (some 2, 1)] ≠
      .ok (([2147483647, 1] : List Int).sum.tdiv 2) := by
  decide

/-- C9 (amended): over a non-empty collection of integer property values the
`SUM` reduction returns the sum of the values reduced modulo `2^32` into the range of
`int`, and the `MEAN` reduction returns that result divided by the number of values
with truncating division; when the sum of the values is a value of `int` these are
the sum itself and the sum divided by the number of values.  Over `2, 4, 6` they
return `12` and `4`. -/
theorem sum_mean_reduction (m : ObjectPropertyValues) (hne : m ≠ []) :
    ReduceData .SUM m = .ok (int_wrap (m.map Prod.snd).sum) ∧
    ReduceData .MEAN m = .ok ((int_wrap (m.map Prod.snd).sum).tdiv (m.length : Nat)) ∧
    (InIntRange (m.map Prod.snd).sum →
      ReduceData .SUM m = .ok (m.map Prod.snd).sum ∧
      ReduceData .MEAN m = .ok ((m.map Prod.snd).sum.tdiv (m.length : Nat))) ∧
    ReduceData .SUM [(some 1, 2), (some 2, 4), (some 3, 6)] = .ok 12 ∧
    ReduceData .MEAN [(some 1, 2), (some 2, 4), (some 3, 6)] = .ok 4 := by
  have hsum : ReduceData .SUM m = .ok (int_wrap (m.map Prod.snd).sum) := by
    cases m with
    | nil => exact absurd rfl hne
    | cons entry rest => simp only [ReduceData, foldl_int_add_eq_sum]
  have hmean : ReduceData .MEAN m =
      .ok ((int_wrap (m.map Prod.snd).sum).tdiv (m.length : Nat)) := by
    cases m with
    | nil => exact absurd rfl hne
    | cons entry rest => simp only [ReduceData, foldl_int_add_eq_sum]
  refine ⟨hsum, hmean, fun hrange => ?_, by decide, by decide⟩
  rw [hsum, hmean, int_wrap_of_inIntRange _ hrange]
  exact ⟨rfl, rfl⟩

/-- C9 (amended), at a concrete collection: over `-7, 2` the sum `-5` is a value
of `int`, the `SUM` reduction returns it and the `MEAN` reduction returns `-2`, the
quotient `-5 / 2` truncated toward zero. -/
theorem sum_mean_reduction_witness :
    InIntRange (([(some 1, -7), (some 2, 2)] : ObjectPropertyValues).map Prod.snd).sum ∧
    ReduceData .SUM [(some 1, -7), (some 2, 2)] = .ok (-5) ∧
    ReduceData .MEAN [(some 1, -7), (some 2, 2)] = .ok (-2) :=
  ⟨by decide,
    ((sum_mean_reduction [(some 1, -7), (some 2, 2)] (by simp)).2.2.1 (by decide)).1,
    ((sum_mean_reduction [(some 1, -7), (some 2, 2)] (by simp)).2.2.1 (by decide)).2⟩

/-- The conversion `sqrt_cast` applied to the truncating quotient of a non-negative
`a` by a positive `d` is the truncated square root of the exact quotient `a / d`. -/
theorem isTruncatedSqrt_sqrt_cast_tdiv (a d : Int) (ha : 0 ≤ a) (hd : 0 < d) :
    IsTruncatedSqrt ((a : ℚ) / (d : ℚ)) (sqrt_cast (a.tdiv d)) := by
  have hdq : (0 : ℚ) < (d : ℚ) := by exact_mod_cast hd
  have htdiv : a.tdiv d = a / d := Int.tdiv_eq_ediv ha (le_of_lt hd)
  have hD : 0 ≤ a / d := Int.ediv_nonneg ha (le_of_lt hd)
  obtain ⟨k, hk⟩ := Int.eq_ofNat_of_zero_le hD
  have h1 : (a / d) * d ≤ a := Int.ediv_mul_le a (ne_of_gt hd)
  have h2 : a < (a / d + 1) * d := Int.lt_ediv_add_one_mul_self a hd
  have hlo : Nat.sqrt k * Nat.sqrt k ≤ k := Nat.sqrt_le k
  have hhi : k < (Nat.sqrt k + 1) * (Nat.sqrt k + 1) := Nat.lt_succ_sqrt k
  have hlo' : ((Nat.sqrt k : Int)) * (Nat.sqrt k : Int) ≤ (k : Int) := by exact_mod_cast hlo
  have hhi' : (k : Int) + 1 ≤ ((Nat.sqrt k : Int) + 1) * ((Nat.sqrt k : Int) + 1) := by
    exact_mod_cast hhi
  rw [hk] at h1 h2
  have e : sqrt_cast (a.tdiv d) = (Nat.sqrt k : Int) := by
    simp [sqrt_cast, htdiv, hk]
  rw [e]
  refine ⟨by positivity, ?_, ?_⟩
  · rw [le_div_iff₀ hdq]
    have : ((Nat.sqrt k : Int)) * (Nat.sqrt k : Int) * d ≤ a :=
      le_trans (Int.mul_le_mul_of_nonneg_right hlo' (le_of_lt hd)) h1
    have hq : (((Nat.sqrt k : Int) * (Nat.sqrt k : Int) * d : Int) : ℚ) ≤ (a : ℚ) := by
      exact_mod_cast this
    push_cast at hq ⊢
    nlinarith [hq]
  · rw [div_lt_iff₀ hdq]
    have : a < ((Nat.sqrt k : Int) + 1) * ((Nat.sqrt k : Int) + 1) * d :=
      lt_of_lt_of_le h2 (Int.mul_le_mul_of_nonneg_right hhi' (le_of_lt hd))
    have hq : (a : ℚ) < ((((Nat.sqrt k : Int) + 1) * ((Nat.sqrt k : Int) + 1) * d : Int) : ℚ) := by
      exact_mod_cast this
    push_cast at hq ⊢
    nlinarith [hq]


/-- Dropping the entries of another key does not change what a key looks up. -/
theorem lookup_filter_ne {T : Type} [DecidableEq T] (histogram : List (T × Nat)) (v w : T)
    (hne : w ≠ v) :
    (histogram.filter (fun entry => entry.1 != v)).lookup w = histogram.lookup w := by
  induction histogram with
  | nil => rfl
  | cons entry rest ih =>
    obtain ⟨k, n⟩ := entry
    by_cases hk : k = v
    · subst hk
      have : (w == k) = false := by simpa using hne
      simp [List.filter_cons, List.lookup_cons, this, ih]
    · have hk' : (k != v) = true := by simpa using hk
      by_cases hw : w = k
      · subst hw
        simp [List.filter_cons, hk', List.lookup_cons]
      · have : (w == k) = false := by simpa using hw
        simp [List.filter_cons, hk', List.lookup_cons, this, ih]

/-- After `num_seen++` on the entry of `v` the histogram reads one more for `v` and
the same for every other value. -/
theorem histogram_find_increment {T : Type} [DecidableEq T] (histogram : List (T × Nat))
    (v w : T) :
    histogram_find (histogram_increment histogram v) w =
      if w = v then histogram_find histogram v + 1 else histogram_find histogram w := by
  by_cases h : w = v
  · subst h
    simp [histogram_find, histogram_increment, List.lookup_cons]
  · have : (w == v) = false := by simpa using h
    simp [histogram_find, histogram_increment, List.lookup_cons, this, h, lookup_filter_ne _ _ _ h]

/-- The scan invariant holds before the first step. -/
theorem modeScanInvariant_init {T : Type} [DecidableEq T] :
    ModeScanInvariant ([] : List T)
      { histogram := [], most_common_property_value_it := none, max_seen := 0 } := by
  refine ⟨fun value => ?_, fun value => ?_, ?_⟩ <;> simp [histogram_find]

/-- One iteration of the `MODE` loop keeps the scan invariant. -/
theorem modeScanInvariant_step {T : Type} [DecidableEq T] (seen : List T) (st : ModeState T)
    (entry : UniverseObjectPtr × T) (hinv : ModeScanInvariant seen st) :
    ModeScanInvariant (seen ++ [entry.2]) (mode_step st entry) := by
  obtain ⟨hhist, hmax, hmost⟩ := hinv
  have hcount : ∀ value, (seen ++ [entry.2]).count value =
      if value = entry.2 then seen.count entry.2 + 1 else seen.count value := by
    intro value
    by_cases h : value = entry.2
    · subst h; simp
    · have h' : ¬ entry.2 = value := fun e => h e.symm
      simp [h, List.count_cons, h']
  by_cases hgt : histogram_find st.histogram entry.2 + 1 > st.max_seen
  · have hstep : mode_step st entry =
        { histogram := histogram_increment st.histogram entry.2,
          most_common_property_value_it := some entry.2,
          max_seen := histogram_find st.histogram entry.2 + 1 } := by
      simp [mode_step, hgt]
    rw [hstep]
    rw [hhist] at hgt
    refine ⟨fun value => ?_, fun value => ?_, ?_⟩
    · simp only [histogram_find_increment, hcount, hhist]
    · simp only [hcount, hhist]
      split
      · exact le_refl _
      · have := hmax value
        omega
    · refine ⟨seen, [], rfl, by simp [hhist], fun value => ?_⟩
      have := hmax value
      simp only [hhist]
      omega
  · have hstep : mode_step st entry =
        { histogram := histogram_increment st.histogram entry.2,
          most_common_property_value_it := st.most_common_property_value_it,
          max_seen := st.max_seen } := by
      simp [mode_step, hgt]
    rw [hstep]
    rw [hhist] at hgt
    refine ⟨fun value => ?_, fun value => ?_, ?_⟩
    · simp only [histogram_find_increment, hcount, hhist]
    · simp only [hcount]
      split
      · omega
      · exact hmax value
    · cases hm : st.most_common_property_value_it with
      | none =>
        rw [hm] at hmost
        obtain ⟨_, h0⟩ := hmost
        omega
      | some mode =>
        rw [hm] at hmost
        obtain ⟨pre, post, hseen, hpre, hlt⟩ := hmost
        exact ⟨pre, post ++ [entry.2], by simp [hseen], hpre, hlt⟩

/-- The `MODE` loop keeps the scan invariant. -/
theorem modeScanInvariant_foldl {T : Type} [DecidableEq T] (entries : List (UniverseObjectPtr × T))
    (seen : List T) (st : ModeState T) (hinv : ModeScanInvariant seen st) :
    ModeScanInvariant (seen ++ entries.map Prod.snd) (entries.foldl mode_step st) := by
  induction entries generalizing seen st with
  | nil => simpa using hinv
  | cons entry rest ih =>
    have := ih (seen ++ [entry.2]) (mode_step st entry) (modeScanInvariant_step seen st entry hinv)
    simpa using this

/-- What the scan of a non-empty collection ends with. -/
theorem mode_scan_result {T : Type} [DecidableEq T] (entries : List (UniverseObjectPtr × T))
    (hne : entries ≠ []) :
    ∃ mode pre post,
      (entries.foldl mode_step
        { histogram := [], most_common_property_value_it := none, max_seen := 0 }
        ).most_common_property_value_it = some mode ∧
      entries.map Prod.snd = pre ++ mode :: post ∧
      (∀ value, (entries.map Prod.snd).count value ≤ pre.count mode + 1) ∧
      (∀ value, pre.count value < pre.count mode + 1) := by
  have hinv := modeScanInvariant_foldl entries [] _ modeScanInvariant_init
  simp only [List.nil_append] at hinv
  obtain ⟨_, hmax, hmost⟩ := hinv
  cases hm : (entries.foldl mode_step
      { histogram := [], most_common_property_value_it := none, max_seen := 0 }
      ).most_common_property_value_it with
  | none =>
    rw [hm] at hmost
    exact absurd (List.map_eq_nil_iff.mp hmost.1) hne
  | some mode =>
    rw [hm] at hmost
    obtain ⟨pre, post, hseen, hpre, hlt⟩ := hmost
    refine ⟨mode, pre, post, rfl, hseen, fun value => ?_, fun value => ?_⟩
    · rw [hpre]; exact hmax value
    · rw [hpre]; exact hlt value


/-- The `MODE` branch of `ReduceData` returns the value the scan ends on. -/
theorem reduceData_mode_eq (m : ObjectPropertyValues) (mode : Int)
    (hscan : (m.foldl mode_step
        ({ histogram := [], most_common_property_value_it := none, max_seen := 0 } :
          ModeState Int)).most_common_property_value_it = some mode) :
    ReduceData .MODE m = .ok mode := by
  cases m with
  | nil => simp at hscan
  | cons first rest => simp only [ReduceData, hscan]

/-- C11: over a non-empty collection the `MODE` reduction returns a value that
occurs in the collection and that no value of the collection occurs more often than;
over `1, 1, 2, 3` it returns `1`. -/
theorem mode_reduction_most_common (m : ObjectPropertyValues) (hne : m ≠ []) :
    (∃ mode, ReduceData .MODE m = .ok mode ∧ mode ∈ m.map Prod.snd ∧
      ∀ value, (m.map Prod.snd).count value ≤ (m.map Prod.snd).count mode) ∧
    ReduceData .MODE [(some 1, 1), (some 2, 1), (some 3, 2), (some 4, 3)] = .ok 1 := by
  refine ⟨?_, by decide⟩
  obtain ⟨mode, pre, post, hscan, hvalues, hmax, _⟩ := mode_scan_result m hne
  refine ⟨mode, reduceData_mode_eq m mode hscan, ?_, fun value => ?_⟩
  · rw [hvalues]; simp
  · refine le_trans (hmax value) ?_
    rw [hvalues]
    simp

/-- C11, at a concrete collection: over `4, 9, 9` the `MODE` reduction returns a
value of the collection with the most occurrences, which is `9`. -/
theorem mode_reduction_most_common_witness :
    (∃ mode, ReduceData .MODE [(some 1, 4), (some 2, 9), (some 3, 9)] = .ok mode ∧
      mode ∈ [4, 9, 9] ∧
      ∀ value, ([4, 9, 9] : List Int).count value ≤ ([4, 9, 9] : List Int).count mode) ∧
    ReduceData .MODE [(some 1, 4), (some 2, 9), (some 3, 9)] = .ok 9 :=
  ⟨(mode_reduction_most_common [(some 1, 4), (some 2, 9), (some 3, 9)] (by simp)).1, by decide⟩

/-- C12: over a non-empty scan the `MODE` reduction returns a value `mode` with
the highest occurrence count `highest`, and the scan splits as `pre ++ mode :: post`
where this occurrence of `mode` is its `highest`-th and no value occurs `highest`
times within `pre`: `mode` is the first value to reach the highest count.  When all
values are distinct the result is the first value scanned; over the scan `3, 1, 2` it
is `3`, not the smallest value `1`. -/
theorem mode_tie_break (m : ObjectPropertyValues) (hne : m ≠ []) :
    (∃ mode highest pre post, ReduceData .MODE m = .ok mode ∧
      m.map Prod.snd = pre ++ mode :: post ∧
      (m.map Prod.snd).count mode = highest ∧
      (∀ value, (m.map Prod.snd).count value ≤ highest) ∧
      pre.count mode + 1 = highest ∧
      (∀ value, pre.count value < highest) ∧
      ((m.map Prod.snd).Nodup → (m.map Prod.snd).head? = some mode)) ∧
    ReduceData .MODE [(some 1, 3), (some 2, 1), (some 3, 2)] = .ok 3 := by
  refine ⟨?_, by decide⟩
  obtain ⟨mode, pre, post, hscan, hvalues, hmax, hlt⟩ := mode_scan_result m hne
  have hcount : (m.map Prod.snd).count mode = pre.count mode + 1 := by
    apply le_antisymm (hmax mode)
    rw [hvalues]
    simp
  refine ⟨mode, pre.count mode + 1, pre, post, reduceData_mode_eq m mode hscan, hvalues, hcount,
    hmax, rfl, hlt, fun hnodup => ?_⟩
  have hone : (m.map Prod.snd).count mode = 1 :=
    List.count_eq_one_of_mem hnodup (by rw [hvalues]; simp)
  have hpre : pre = [] := by
    cases pre with
    | nil => rfl
    | cons a rest =>
      have := hlt a
      simp at this
      omega
  rw [hvalues, hpre]
  rfl

/-- C12, at a concrete scan: in `5, 7, 7, 5` both values occur twice, the second
`7` comes before the second `5`, and the `MODE` reduction returns `7`. -/
theorem mode_tie_break_witness :
    (∃ mode highest pre post,
      ReduceData .MODE [(some 1, 5), (some 2, 7), (some 3, 7), (some 4, 5)] = .ok mode ∧
      [5, 7, 7, 5] = pre ++ mode :: post ∧
      ([5, 7, 7, 5] : List Int).count mode = highest ∧
      (∀ value, ([5, 7, 7, 5] : List Int).count value ≤ highest) ∧
      pre.count mode + 1 = highest ∧
      (∀ value, pre.count value < highest)) ∧
    ReduceData .MODE [(some 1, 5), (some 2, 7), (some 3, 7), (some 4, 5)] = .ok 7 :=
  ⟨match (mode_tie_break [(some 1, 5), (some 2, 7), (some 3, 7), (some 4, 5)] (by simp)).1 with
    | ⟨mode, highest, pre, post, h1, h2, h3, h4, h5, h6, _⟩ =>
      ⟨mode, highest, pre, post, h1, h2, h3, h4, h5, h6⟩,
    by decide⟩

/-- The `MAX` loop started at `start` ends at an entry that is `start` or one of the
scanned entries and whose value is at least the value of `start` and of every scanned
entry. -/
theorem foldl_max_spec (l : ObjectPropertyValues) (start : UniverseObjectPtr × Int) :
    (l.foldl (fun max_it it => if it.2 > max_it.2 then it else max_it) start ∈ start :: l) ∧
    start.2 ≤ (l.foldl (fun max_it it => if it.2 > max_it.2 then it else max_it) start).2 ∧
    ∀ entry ∈ l,
      entry.2 ≤ (l.foldl (fun max_it it => if it.2 > max_it.2 then it else max_it) start).2 := by
  induction l generalizing start with
  | nil => simp
  | cons x rest ih =>
    simp only [List.foldl_cons]
    obtain ⟨hmem, hstart, hall⟩ := ih (if x.2 > start.2 then x else start)
    refine ⟨?_, ?_, ?_⟩
    · rcases List.mem_cons.mp hmem with h | h
      · rw [h]
        split <;> simp
      · exact List.mem_cons_of_mem _ (List.mem_cons_of_mem _ h)
    · refine le_trans ?_ hstart
      split <;> omega
    · intro entry hentry
      rcases List.mem_cons.mp hentry with h | h
      · subst h
        refine le_trans ?_ hstart
        split <;> omega
      · exact hall entry h

/-- The `MIN` loop started at `start` ends at an entry that is `start` or one of the
scanned entries and whose value is at most the value of `start` and of every scanned
entry. -/
theorem foldl_min_spec (l : ObjectPropertyValues) (start : UniverseObjectPtr × Int) :
    (l.foldl (fun min_it it => if it.2 < min_it.2 then it else min_it) start ∈ start :: l) ∧
    (l.foldl (fun min_it it => if it.2 < min_it.2 then it else min_it) start).2 ≤ start.2 ∧
    ∀ entry ∈ l,
      (l.foldl (fun min_it it => if it.2 < min_it.2 then it else min_it) start).2 ≤ entry.2 := by
  induction l generalizing start with
  | nil => simp
  | cons x rest ih =>
    simp only [List.foldl_cons]
    obtain ⟨hmem, hstart, hall⟩ := ih (if x.2 < start.2 then x else start)
    refine ⟨?_, ?_, ?_⟩
    · rcases List.mem_cons.mp hmem with h | h
      · rw [h]
        split <;> simp
      · exact List.mem_cons_of_mem _ (List.mem_cons_of_mem _ h)
    · refine le_trans hstart ?_
      split <;> omega
    · intro entry hentry
      rcases List.mem_cons.mp hentry with h | h
      · subst h
        refine le_trans hstart ?_
        split <;> omega
      · exact hall entry h

/-- C13: over a non-empty collection the `MAX` reduction returns a value of the
collection that is greater than or equal to every value in it, and the `MIN`
reduction returns a value of the collection that is less than or equal to every value
in it. -/
theorem max_min_reduction (m : ObjectPropertyValues) (hne : m ≠ []) :
    (∃ hi, ReduceData .MAX m = .ok hi ∧ hi ∈ m.map Prod.snd ∧
      ∀ value ∈ m.map Prod.snd, value ≤ hi) ∧
    (∃ lo, ReduceData .MIN m = .ok lo ∧ lo ∈ m.map Prod.snd ∧
      ∀ value ∈ m.map Prod.snd, lo ≤ value) := by
  cases m with
  | nil => exact absurd rfl hne
  | cons first rest =>
    constructor
    · obtain ⟨hmem, _, hall⟩ := foldl_max_spec (first :: rest) first
      refine ⟨_, rfl, ?_, ?_⟩
      · apply List.mem_map_of_mem Prod.snd
        rcases List.mem_cons.mp hmem with h | h
        · rw [h]; exact List.mem_cons_self _ _
        · exact h
      · intro value hvalue
        obtain ⟨entry, hentry, rfl⟩ := List.mem_map.mp hvalue
        exact hall entry hentry
    · obtain ⟨hmem, _, hall⟩ := foldl_min_spec (first :: rest) first
      refine ⟨_, rfl, ?_, ?_⟩
      · apply List.mem_map_of_mem Prod.snd
        rcases List.mem_cons.mp hmem with h | h
        · rw [h]; exact List.mem_cons_self _ _
        · exact h
      · intro value hvalue
        obtain ⟨entry, hentry, rfl⟩ := List.mem_map.mp hvalue
        exact hall entry hentry

/-- C13, at a concrete collection: over `4, -2, 9, 4` the `MAX` reduction returns
`9` and the `MIN` reduction returns `-2`. -/
theorem max_min_reduction_witness :
    ((∃ hi, ReduceData .MAX [(some 1, 4), (some 2, -2), (some 3, 9), (some 4, 4)] = .ok hi ∧
        hi ∈ [4, -2, 9, 4] ∧ ∀ value ∈ ([4, -2, 9, 4] : List Int), value ≤ hi) ∧
      (∃ lo, ReduceData .MIN [(some 1, 4), (some 2, -2), (some 3, 9), (some 4, 4)] = .ok lo ∧
        lo ∈ [4, -2, 9, 4] ∧ ∀ value ∈ ([4, -2, 9, 4] : List Int), lo ≤ value)) ∧
    ReduceData .MAX [(some 1, 4), (some 2, -2), (some 3, 9), (some 4, 4)] = .ok 9 ∧
    ReduceData .MIN [(some 1, 4), (some 2, -2), (some 3, 9), (some 4, 4)] = .ok (-2) :=
  ⟨max_min_reduction [(some 1, 4), (some 2, -2), (some 3, 9), (some 4, 4)] (by simp),
    by decide, by decide⟩

/-- The `UNIQUE_COUNT` loop, started from a duplicate-free `observed_values`, ends
with a duplicate-free list holding the values it started with and the values scanned. -/
theorem foldl_insert_spec (l : ObjectPropertyValues) (observed_values : List Int)
    (hnodup : observed_values.Nodup) :
    (l.foldl (fun observed it => observed.insert it.2) observed_values).Nodup ∧
    ∀ value, value ∈ l.foldl (fun observed it => observed.insert it.2) observed_values ↔
      value ∈ observed_values ∨ value ∈ l.map Prod.snd := by
  induction l generalizing observed_values with
  | nil => simp [hnodup]
  | cons x rest ih =>
    simp only [List.foldl_cons]
    obtain ⟨h1, h2⟩ := ih (observed_values.insert x.2) (hnodup.insert)
    refine ⟨h1, fun value => ?_⟩
    rw [h2 value]
    simp only [List.mem_insert_iff, List.map_cons, List.mem_cons]
    tauto

/-- C15: the `UNIQUE_COUNT` reduction returns the number of distinct values of
the collection, which is at most the number of entries, and `0` for the empty
collection. -/
theorem unique_count_reduction (m : ObjectPropertyValues) :
    ReduceData .UNIQUE_COUNT m = .ok ((m.map Prod.snd).toFinset.card : Nat) ∧
    (m.map Prod.snd).toFinset.card ≤ m.length ∧
    ReduceData .UNIQUE_COUNT [] = .ok 0 := by
  refine ⟨?_, ?_, rfl⟩
  · cases m with
    | nil => rfl
    | cons first rest =>
      obtain ⟨hnodup, hmem⟩ := foldl_insert_spec (first :: rest) [] List.nodup_nil
      have hset : ((first :: rest).foldl (fun observed it => observed.insert it.2) []).toFinset =
          ((first :: rest).map Prod.snd).toFinset := by
        ext value
        simp only [List.mem_toFinset, hmem value, List.not_mem_nil, false_or]
      simp only [ReduceData]
      rw [← hset, List.toFinset_card_of_nodup hnodup]
  · calc (m.map Prod.snd).toFinset.card ≤ (m.map Prod.snd).length := List.toFinset_card_le _
      _ = m.length := List.length_map _ _

/-- The `PRODUCT` loop, started from an `int`, ends on the reduction of the starting
value times the exact product of the values. -/
theorem foldl_int_mul_eq_prod (m : ObjectPropertyValues) (start : Int)
    (hs : InIntRange start) :
    m.foldl (fun accumulator it => int_mul accumulator it.2) start =
      int_wrap (start * (m.map Prod.snd).prod) := by
  induction m generalizing start with
  | nil => simp [int_wrap_of_inIntRange start hs]
  | cons entry rest ih =>
    simp only [List.foldl_cons, List.map_cons, List.prod_cons]
    rw [ih (int_mul start entry.2) (inIntRange_int_wrap _)]
    apply int_wrap_congr
    have h1 : int_mul start entry.2 * (rest.map Prod.snd).prod ≡
        start * entry.2 * (rest.map Prod.snd).prod [ZMOD 4294967296] :=
      (int_wrap_modEq (start * entry.2)).mul_right _
    rw [mul_assoc start] at h1
    exact h1

/-- C16 (as stated) fails on the empty collection: the product of no values is `1`,
while the `PRODUCT` reduction of the empty collection is the `0` of the empty-input
guard. -/
theorem product_of_empty_is_zero :
    ReduceData .PRODUCT [] = .ok 0 ∧ (([] : ObjectPropertyValues).map Prod.snd).prod = 1 ∧
    ReduceData .PRODUCT [] ≠ .ok (([] : ObjectPropertyValues).map Prod.snd).prod := by
  decide

/-- C16 (amended): over a non-empty collection the `PRODUCT` reduction returns the
product of the values, the fold of multiplication from `1`, reduced modulo `2^32`
into the range of `int`; when the product of the values is a value of `int` it is the
product itself.  Over the empty collection it returns `0`, and over `65536, 65536`,
whose product is `2^32`, it returns `0` as well. -/
theorem product_reduction (m : ObjectPropertyValues) (hne : m ≠ []) :
    ReduceData .PRODUCT m = .ok (int_wrap (m.map Prod.snd).prod) ∧
    (InIntRange (m.map Prod.snd).prod → ReduceData .PRODUCT m = .ok (m.map Prod.snd).prod) ∧
    ReduceData .PRODUCT [] = .ok 0 ∧
    ReduceData .PRODUCT [(some 1, 65536), (some 2, 65536)] = .ok 0 := by
  have hprod : ReduceData .PRODUCT m = .ok (int_wrap (m.map Prod.snd).prod) := by
    cases m with
    | nil => exact absurd rfl hne
    | cons entry rest =>
      simp only [ReduceData, foldl_int_mul_eq_prod _ 1 (by decide), one_mul]
  refine ⟨hprod, fun hrange => ?_, rfl, by decide⟩
  rw [hprod, int_wrap_of_inIntRange _ hrange]

/-- C16 (amended), at a concrete collection: over `2, -3, 4` the product `-24` is
a value of `int` and the `PRODUCT` reduction returns it. -/
theorem product_reduction_witness :
    InIntRange (([(some 1, 2), (some 2, -3), (some 3, 4)] : ObjectPropertyValues).map
      Prod.snd).prod ∧
    ReduceData .PRODUCT [(some 1, 2), (some 2, -3), (some 3, 4)] = .ok (-24) :=
  ⟨by decide,
    (product_reduction [(some 1, 2), (some 2, -3), (some 3, 4)] (by simp)).2.1 (by decide)⟩

/-! ## Sampling -/

/-- An entry of the map after an assignment is the assigned entry or was there before. -/
theorem mem_of_mem_map_assign {T : Type} (m : List (UniverseObjectPtr × T))
    (key : UniverseObjectPtr) (value : T) (entry : UniverseObjectPtr × T)
    (h : entry ∈ map_assign m key value) : entry = (key, value) ∨ entry ∈ m := by
  induction m with
  | nil => simpa [map_assign] using h
  | cons head rest ih =>
    simp only [map_assign] at h
    split at h
    · rcases List.mem_cons.mp h with h | h
      · exact Or.inl h
      · exact Or.inr (List.mem_cons_of_mem _ h)
    · split at h
      · rcases List.mem_cons.mp h with h | h
        · exact Or.inl h
        · exact Or.inr h
      · rcases List.mem_cons.mp h with h | h
        · exact Or.inr (h ▸ List.mem_cons_self _ _)
        · rcases ih h with h | h
          · exact Or.inl h
          · exact Or.inr (List.mem_cons_of_mem _ h)

/-- After an assignment the map has an entry for the assigned key and for every key
it had before. -/
theorem key_mem_map_assign {T : Type} (m : List (UniverseObjectPtr × T))
    (key : UniverseObjectPtr) (value : T) (o : UniverseObjectPtr)
    (h : o = key ∨ ∃ v, (o, v) ∈ m) : ∃ v, (o, v) ∈ map_assign m key value := by
  induction m with
  | nil =>
    rcases h with h | ⟨v, hv⟩
    · exact ⟨value, by simp [map_assign, h]⟩
    · simp at hv
  | cons head rest ih =>
    simp only [map_assign]
    split
    · rename_i hk
      rcases h with h | ⟨v, hv⟩
      · exact ⟨value, by simp [h]⟩
      · rcases List.mem_cons.mp hv with hv | hv
        · refine ⟨value, ?_⟩
          have : o = key := by rw [hk, ← hv]
          simp [this]
        · exact ⟨v, List.mem_cons_of_mem _ hv⟩
    · split
      · rcases h with h | ⟨v, hv⟩
        · exact ⟨value, by simp [h]⟩
        · exact ⟨v, List.mem_cons_of_mem _ hv⟩
      · rcases h with h | ⟨v, hv⟩
        · obtain ⟨v', hv'⟩ := ih (Or.inl h)
          exact ⟨v', List.mem_cons_of_mem _ hv'⟩
        · rcases List.mem_cons.mp hv with hv | hv
          · exact ⟨v, hv ▸ List.mem_cons_self _ _⟩
          · obtain ⟨v', hv'⟩ := ih (Or.inr ⟨v, hv⟩)
            exact ⟨v', List.mem_cons_of_mem _ hv'⟩

/-- What the sampling loop ends with: a map when every property evaluation succeeds,
whose entries are entries it started with or results of the evaluations and which has
an entry for every object and every key it started with; and otherwise the error of
an evaluation that failed. -/
theorem sampling_loop_spec {T A : Type}
    (variableEval : ReferenceType → List String → ScriptingContext A → Except EvalError T)
    (s : Statistic) (context : ScriptingContext A) (objects : ObjectSet)
    (acc : List (UniverseObjectPtr × T)) :
    match sampling_loop variableEval s context objects acc with
    | .ok values =>
      (∀ o ∈ objects, ∃ v,
        variableEval s.m_ref_type s.m_property_name (nest context o) = .ok v) ∧
      (∀ entry ∈ values, entry ∈ acc ∨ (entry.1 ∈ objects ∧
        variableEval s.m_ref_type s.m_property_name (nest context entry.1) = .ok entry.2)) ∧
      (∀ o, (o ∈ objects ∨ ∃ v, (o, v) ∈ acc) → ∃ v, (o, v) ∈ values)
    | .error e =>
      ∃ o ∈ objects,
        variableEval s.m_ref_type s.m_property_name (nest context o) = .error e := by
  induction objects generalizing acc with
  | nil =>
    simp only [sampling_loop]
    refine ⟨by simp, fun entry h => Or.inl h, fun o h => ?_⟩
    rcases h with h | h
    · simp at h
    · exact h
  | cons it rest ih =>
    simp only [sampling_loop]
    cases hev : variableEval s.m_ref_type s.m_property_name (nest context it) with
    | error e => exact ⟨it, List.mem_cons_self _ _, hev⟩
    | ok property_value =>
      simp only
      have hrec := ih (map_assign acc it property_value)
      cases hloop : sampling_loop variableEval s context rest
          (map_assign acc it property_value) with
      | error e =>
        rw [hloop] at hrec
        obtain ⟨o, ho, hoe⟩ := hrec
        exact ⟨o, List.mem_cons_of_mem _ ho, hoe⟩
      | ok values =>
        rw [hloop] at hrec
        obtain ⟨hall, hentries, hkeys⟩ := hrec
        refine ⟨?_, ?_, ?_⟩
        · intro o ho
          rcases List.mem_cons.mp ho with h | h
          · exact ⟨property_value, h ▸ hev⟩
          · exact hall o h
        · intro entry hentry
          rcases hentries entry hentry with h | ⟨h1, h2⟩
          · rcases mem_of_mem_map_assign acc it property_value entry h with h | h
            · right
              rw [h]
              exact ⟨List.mem_cons_self _ _, hev⟩
            · exact Or.inl h
          · exact Or.inr ⟨List.mem_cons_of_mem _ h1, h2⟩
        · intro o ho
          apply hkeys
          rcases ho with h | h
          · rcases List.mem_cons.mp h with h | h
            · exact Or.inr (key_mem_map_assign acc it property_value o (Or.inl h))
            · exact Or.inl h
          · exact Or.inr (key_mem_map_assign acc it property_value o (Or.inr h))

/-- The sampling loop calls the property lookup only with the node's tag. -/
theorem sampling_loop_congr {T A : Type}
    (variableEval variableEval' : ReferenceType → List String → ScriptingContext A →
      Except EvalError T)
    (s : Statistic) (context : ScriptingContext A) (objects : ObjectSet)
    (acc : List (UniverseObjectPtr × T))
    (hagree : ∀ name c, variableEval' s.m_ref_type name c = variableEval s.m_ref_type name c) :
    sampling_loop variableEval' s context objects acc =
      sampling_loop variableEval s context objects acc := by
  induction objects generalizing acc with
  | nil => rfl
  | cons it rest ih =>
    simp only [sampling_loop, hagree]
    cases variableEval s.m_ref_type s.m_property_name (nest context it) with
    | error e => rfl
    | ok property_value => exact ih _

/-- C19: when `GetObjectPropertyValues` completes normally, the node it leaves is
the node it was called on, reference type included; every matched object was
evaluated with the tag `CONDITION_LOCAL_CANDIDATE_REFERENCE` in the context nested on
that object, the map holds exactly these results, and the call does not depend on
what the property lookup does with any other tag. -/
theorem sampling_restores_reference_type {T A : Type}
    (variableEval : ReferenceType → List String → ScriptingContext A → Except EvalError T)
    (s : Statistic) (context : ScriptingContext A) (objects : ObjectSet)
    (values : List (UniverseObjectPtr × T))
    (hnormal : (GetObjectPropertyValues variableEval s context objects).2 = .ok values) :
    (GetObjectPropertyValues variableEval s context objects).1 = s ∧
    (∀ o ∈ objects, ∃ v,
      variableEval .CONDITION_LOCAL_CANDIDATE_REFERENCE s.m_property_name (nest context o)
        = .ok v ∧ (o, v) ∈ values) ∧
    (∀ entry ∈ values, entry.1 ∈ objects ∧
      variableEval .CONDITION_LOCAL_CANDIDATE_REFERENCE s.m_property_name
        (nest context entry.1) = .ok entry.2) ∧
    (∀ variableEval' : ReferenceType → List String → ScriptingContext A →
        Except EvalError T,
      (∀ name c, variableEval' .CONDITION_LOCAL_CANDIDATE_REFERENCE name c =
        variableEval .CONDITION_LOCAL_CANDIDATE_REFERENCE name c) →
      GetObjectPropertyValues variableEval' s context objects =
        GetObjectPropertyValues variableEval s context objects) := by
  have hspec := sampling_loop_spec variableEval
    { s with m_ref_type := ReferenceType.CONDITION_LOCAL_CANDIDATE_REFERENCE } context objects []
  have hcongr : ∀ variableEval' : ReferenceType → List String → ScriptingContext A →
      Except EvalError T,
      (∀ name c, variableEval' .CONDITION_LOCAL_CANDIDATE_REFERENCE name c =
        variableEval .CONDITION_LOCAL_CANDIDATE_REFERENCE name c) →
      GetObjectPropertyValues variableEval' s context objects =
        GetObjectPropertyValues variableEval s context objects := by
    intro variableEval' hagree
    simp only [GetObjectPropertyValues]
    rw [sampling_loop_congr variableEval variableEval' _ context objects [] hagree]
  cases hloop : sampling_loop variableEval
      { s with m_ref_type := ReferenceType.CONDITION_LOCAL_CANDIDATE_REFERENCE }
      context objects [] with
  | error e =>
    simp [GetObjectPropertyValues, hloop] at hnormal
  | ok values' =>
    rw [hloop] at hspec
    have hfirst : (GetObjectPropertyValues variableEval s context objects).1 = s := by
      simp [GetObjectPropertyValues, hloop]
    simp only [GetObjectPropertyValues, hloop] at hnormal
    have hv : values' = values := by simpa using hnormal
    subst hv
    obtain ⟨hall, hentries, hkeys⟩ := hspec
    have hentries' : ∀ entry ∈ values', entry.1 ∈ objects ∧
        variableEval .CONDITION_LOCAL_CANDIDATE_REFERENCE s.m_property_name
          (nest context entry.1) = .ok entry.2 := by
      intro entry hentry
      rcases hentries entry hentry with h | h
      · simp at h
      · exact h
    refine ⟨hfirst, ?_, hentries', hcongr⟩
    intro o ho
    obtain ⟨v, hv⟩ := hkeys o (Or.inl ho)
    exact ⟨v, (hentries' (o, v) hv).2, hv⟩

/-- C19, at a concrete node: sampling the property `ID` on the objects `3, 1, 2`
completes normally, fills the map in key order and leaves the constructed node with
its tag `NON_OBJECT_REFERENCE`. -/
theorem sampling_restores_reference_type_witness :
    (GetObjectPropertyValues idLookup (Statistic.new ["LocalCandidate", "ID"] .MODE none)
      ScriptingContext.empty [some 3, some 1, some 2]).2 =
      .ok [(some 1, 1), (some 2, 2), (some 3, 3)] ∧
    (GetObjectPropertyValues idLookup (Statistic.new ["LocalCandidate", "ID"] .MODE none)
      ScriptingContext.empty [some 3, some 1, some 2]).1 =
      Statistic.new ["LocalCandidate", "ID"] .MODE none ∧
    (GetObjectPropertyValues idLookup (Statistic.new ["LocalCandidate", "ID"] .MODE none)
      ScriptingContext.empty [some 3, some 1, some 2]).1.m_ref_type = .NON_OBJECT_REFERENCE :=
  ⟨by decide,
    (sampling_restores_reference_type idLookup
      (Statistic.new ["LocalCandidate", "ID"] .MODE none) ScriptingContext.empty
      [some 3, some 1, some 2] [(some 1, 1), (some 2, 2), (some 3, 3)] (by decide)).1,
    by decide⟩

/-- C17: aggregation over an empty match set is total.  For every statistic tag
`ReduceData` of the empty collection returns `0`; and the generic `Statistic<T>::Eval`
of a `MODE` node whose sampling condition matches nothing returns `T(-1)` and leaves
the node as it was, whatever the property lookup is, which is not consulted. -/
theorem empty_aggregation_total {T A : Type} [IntCast T] [DecidableEq T]
    (conditionEval : ConditionBase → ScriptingContext A → ObjectSet)
    (variableEval : ReferenceType → List String → ScriptingContext A → Except EvalError T)
    (s : Statistic) (context : ScriptingContext A) (tag : StatisticType)
    (hmode : s.m_stat_type = .MODE)
    (hempty : GetConditionMatches conditionEval context s.m_sampling_condition = []) :
    ReduceData tag [] = .ok 0 ∧
    Statistic.Eval conditionEval variableEval s context = (s, .ok ((-1 : Int) : T)) := by
  refine ⟨rfl, ?_⟩
  simp [Statistic.Eval, hmode, hempty]

/-- C17, at a concrete node: a `MODE` node without sampling condition matches
nothing and evaluates to `-1`; `MAX` of the empty collection is `0`. -/
theorem empty_aggregation_total_witness :
    (Statistic.new ["LocalCandidate", "ID"] .MODE none).m_stat_type = .MODE ∧
    GetConditionMatches threeObjectsCondition (ScriptingContext.empty : ScriptingContext Int)
      (Statistic.new ["LocalCandidate", "ID"] .MODE none).m_sampling_condition = [] ∧
    ReduceData .MAX [] = .ok 0 ∧
    Statistic.Eval threeObjectsCondition idLookup
      (Statistic.new ["LocalCandidate", "ID"] .MODE none) ScriptingContext.empty =
        (Statistic.new ["LocalCandidate", "ID"] .MODE none, .ok (-1)) :=
  ⟨rfl, rfl,
    (empty_aggregation_total threeObjectsCondition idLookup
      (Statistic.new ["LocalCandidate", "ID"] .MODE none) ScriptingContext.empty .MAX rfl rfl).1,
    (empty_aggregation_total threeObjectsCondition idLookup
      (Statistic.new ["LocalCandidate", "ID"] .MODE none) ScriptingContext.empty .MAX rfl rfl).2⟩

/-- C18: the generic `Statistic<T>::Eval` of a node whose tag is not `MODE`
throws the invalid-type error in every context and for every sampling condition and
property lookup, leaving the node as it was.  With the tag `MODE` it does not: every
error it ends with is the error of a property evaluation on a matched object, and it
returns a value when these evaluations all succeed. -/
theorem generic_eval_mode_only {T A : Type} [IntCast T] [DecidableEq T]
    (conditionEval : ConditionBase → ScriptingContext A → ObjectSet)
    (variableEval : ReferenceType → List String → ScriptingContext A → Except EvalError T)
    (r : ReferenceType) (name : List String) (tag : StatisticType)
    (cond : Option ConditionBase) (context : ScriptingContext A) (htag : tag ≠ .MODE) :
    Statistic.Eval conditionEval variableEval (Statistic.mk r name tag cond) context =
      (Statistic.mk r name tag cond, .error (.runtime_error
        "ValueRef evaluated with an invalid StatisticType for the return type.")) ∧
    (∀ e, (Statistic.Eval conditionEval variableEval
        (Statistic.mk r name .MODE cond) context).2 = .error e →
      ∃ o ∈ GetConditionMatches conditionEval context cond,
        variableEval .CONDITION_LOCAL_CANDIDATE_REFERENCE name (nest context o) = .error e) ∧
    ((∀ o ∈ GetConditionMatches conditionEval context cond, ∃ v,
        variableEval .CONDITION_LOCAL_CANDIDATE_REFERENCE name (nest context o) = .ok v) →
      ∃ v, (Statistic.Eval conditionEval variableEval
        (Statistic.mk r name .MODE cond) context).2 = .ok v) := by
  have hcases : ∀ e, (Statistic.Eval conditionEval variableEval
        (Statistic.mk r name .MODE cond) context).2 = .error e →
      ∃ o ∈ GetConditionMatches conditionEval context cond,
        variableEval .CONDITION_LOCAL_CANDIDATE_REFERENCE name (nest context o) = .error e := by
    intro e he
    have hspec := sampling_loop_spec variableEval
      (Statistic.mk .CONDITION_LOCAL_CANDIDATE_REFERENCE name .MODE cond) context
      (GetConditionMatches conditionEval context cond) []
    by_cases hemp : (GetConditionMatches conditionEval context cond).isEmpty = true
    · simp [Statistic.Eval, hemp] at he
    · have hemp' : (GetConditionMatches conditionEval context cond).isEmpty = false := by
        simpa using hemp
      cases hloop : sampling_loop variableEval
          (Statistic.mk .CONDITION_LOCAL_CANDIDATE_REFERENCE name .MODE cond) context
          (GetConditionMatches conditionEval context cond) [] with
      | error e' =>
        rw [hloop] at hspec
        simp [Statistic.Eval, hemp', GetObjectPropertyValues, hloop] at he
        subst he
        exact hspec
      | ok values =>
        rw [hloop] at hspec
        exfalso
        have hne : values ≠ [] := by
          cases hm : GetConditionMatches conditionEval context cond with
          | nil => simp [hm] at hemp
          | cons o rest =>
            obtain ⟨v, hv⟩ := hspec.2.2 o (Or.inl (by simp [hm]))
            exact List.ne_nil_of_mem hv
        obtain ⟨mode, _, _, hscan, _⟩ := mode_scan_result values hne
        simp [Statistic.Eval, hemp', GetObjectPropertyValues, hloop, hscan] at he
  refine ⟨by simp [Statistic.Eval, htag], hcases, fun hall => ?_⟩
  cases hres : (Statistic.Eval conditionEval variableEval
      (Statistic.mk r name .MODE cond) context).2 with
  | ok v => exact ⟨v, rfl⟩
  | error e =>
    obtain ⟨o, ho, hoe⟩ := hcases e hres
    obtain ⟨v, hv⟩ := hall o ho
    rw [hv] at hoe
    cases hoe

/-- C18, at a concrete node: with the tag `SUM` the generic `Eval` throws, although
the sampling condition is null. -/
theorem generic_eval_mode_only_witness :
    StatisticType.SUM ≠ StatisticType.MODE ∧
    Statistic.Eval threeObjectsCondition idLookup
      (Statistic.mk .NON_OBJECT_REFERENCE ["LocalCandidate", "ID"] .SUM none)
      ScriptingContext.empty =
      (Statistic.mk .NON_OBJECT_REFERENCE ["LocalCandidate", "ID"] .SUM none,
        .error (.runtime_error
          "ValueRef evaluated with an invalid StatisticType for the return type.")) :=
  ⟨by decide,
    (generic_eval_mode_only threeObjectsCondition idLookup .NON_OBJECT_REFERENCE
      ["LocalCandidate", "ID"] .SUM none ScriptingContext.empty (by decide)).1⟩

/-- C20 fails on the code: a `MODE` node over the property `Speed`, which the
lookup does not know, sampled on the object `1`.  The evaluation throws inside the
loop, the restoring assignment after the loop is skipped, and the node is left with
the tag `CONDITION_LOCAL_CANDIDATE_REFERENCE` in place of `NON_OBJECT_REFERENCE`, by
`GetObjectPropertyValues` and so by `Eval`. -/
theorem sampling_failure_keeps_local_candidate_tag :
    GetObjectPropertyValues idLookup
      (Statistic.new ["LocalCandidate", "Speed"] .MODE (some ⟨true, true, true⟩))
      ScriptingContext.empty [some 1] =
      (Statistic.mk .CONDITION_LOCAL_CANDIDATE_REFERENCE ["LocalCandidate", "Speed"] .MODE
        (some ⟨true, true, true⟩), .error (.runtime_error "unknown property")) ∧
    (GetObjectPropertyValues idLookup
      (Statistic.new ["LocalCandidate", "Speed"] .MODE (some ⟨true, true, true⟩))
      ScriptingContext.empty [some 1]).1 ≠
      Statistic.new ["LocalCandidate", "Speed"] .MODE (some ⟨true, true, true⟩) ∧
    (Statistic.Eval threeObjectsCondition idLookup
      (Statistic.new ["LocalCandidate", "Speed"] .MODE (some ⟨true, true, true⟩))
      ScriptingContext.empty).1.m_ref_type = .CONDITION_LOCAL_CANDIDATE_REFERENCE := by
  decide

/-! ## StaticCast and StringCast -/

/-- C21: for every `StaticCast` and every `StringCast`, each of the four
invariance predicates is the wrapped node's predicate, `Dump` is the wrapped node's
`Dump` and `Description` the wrapped node's `Description`. -/
theorem casts_forward_to_child {FromType ToType : Type} (c : StaticCast FromType ToType)
    (d : StringCast FromType) (constantText : FromType → String)
    (variableText : List String → ReferenceType → String) :
    (c.RootCandidateInvariant = c.m_value_ref.RootCandidateInvariant ∧
     c.LocalCandidateInvariant = c.m_value_ref.LocalCandidateInvariant ∧
     c.TargetInvariant = c.m_value_ref.TargetInvariant ∧
     c.SourceInvariant = c.m_value_ref.SourceInvariant ∧
     c.Dump constantText variableText = c.m_value_ref.Dump constantText variableText ∧
     c.Description constantText variableText =
       c.m_value_ref.Description constantText variableText) ∧
    (d.RootCandidateInvariant = d.m_value_ref.RootCandidateInvariant ∧
     d.LocalCandidateInvariant = d.m_value_ref.LocalCandidateInvariant ∧
     d.TargetInvariant = d.m_value_ref.TargetInvariant ∧
     d.SourceInvariant = d.m_value_ref.SourceInvariant ∧
     d.Dump constantText variableText = d.m_value_ref.Dump constantText variableText ∧
     d.Description constantText variableText =
       d.m_value_ref.Description constantText variableText) :=
  ⟨⟨rfl, rfl, rfl, rfl, rfl, rfl⟩, ⟨rfl, rfl, rfl, rfl, rfl, rfl⟩⟩

/-! ## Dump and Description -/

/-- The cast of a present operand finds an operator of a list exactly when the operand
is an `Operation` with an operator of the list. -/
theorem operand_op_type_any {T : Type} (ops : List OpType) (operand : ValueRefBase T) :
    ((operand_op_type (some operand)).any fun op_type => ops.contains op_type) =
      has_operator_in ops operand := by
  cases operand <;> rfl

/-- The text `Operation<T>::Dump` assembles for `TIMES` from the texts of its operands. -/
theorem operation_dump_times (lhs rhs : Option OpType) (text1 text2 : String) :
    Operation.Dump .TIMES lhs rhs (.ok text1) (.ok text2) =
      .ok ((if (lhs.any fun op_type => [OpType.PLUS, .MINUS, .NEGATE].contains op_type)
          then "(" ++ text1 ++ ")" else text1) ++ " * " ++
        (if (rhs.any fun op_type => [OpType.PLUS, .MINUS, .NEGATE].contains op_type)
          then "(" ++ text2 ++ ")" else text2)) := by
  rcases lhs with _ | lop <;> rcases rhs with _ | rop <;> (try cases lop) <;>
    (try cases rop) <;> rfl

/-- The text `Operation<T>::Dump` assembles for `DIVIDE` from the texts of its operands. -/
theorem operation_dump_divide (lhs rhs : Option OpType) (text1 text2 : String) :
    Operation.Dump .DIVIDE lhs rhs (.ok text1) (.ok text2) =
      .ok ((if (lhs.any fun op_type => [OpType.PLUS, .MINUS, .NEGATE].contains op_type)
          then "(" ++ text1 ++ ")" else text1) ++ " / " ++
        (if (rhs.any fun op_type => [OpType.PLUS, .MINUS, .NEGATE].contains op_type)
          then "(" ++ text2 ++ ")" else text2)) := by
  rcases lhs with _ | lop <;> rcases rhs with _ | rop <;> (try cases lop) <;>
    (try cases rop) <;> rfl

/-- The text `Operation<T>::Dump` assembles for `EXPONENTIATE` from the texts of its
operands. -/
theorem operation_dump_exponentiate (lhs rhs : Option OpType) (text1 text2 : String) :
    Operation.Dump .EXPONENTIATE lhs rhs (.ok text1) (.ok text2) =
      .ok ((if (lhs.any fun op_type =>
            [OpType.EXPONENTIATE, .TIMES, .DIVIDE, .PLUS, .MINUS, .NEGATE].contains op_type)
          then "(" ++ text1 ++ ")" else text1) ++ " ^ " ++
        (if (rhs.any fun op_type =>
            [OpType.EXPONENTIATE, .TIMES, .DIVIDE, .PLUS, .MINUS, .NEGATE].contains op_type)
          then "(" ++ text2 ++ ")" else text2)) := by
  rcases lhs with _ | lop <;> rcases rhs with _ | rop <;> (try cases lop) <;>
    (try cases rop) <;> rfl

/-- C22: for an `Operation` with operator `TIMES` or `DIVIDE` whose operands `l`
and `r` dump as `sl` and `sr`, `Dump` gives the text of `l`, the operator symbol and
the text of `r`, where the text of an operand is wrapped in parentheses exactly when
the operand is an `Operation` with operator `PLUS`, `MINUS` or `NEGATE`: each operand
that is a `PLUS` or a `MINUS` is wrapped.  `TIMES(PLUS(1, 2), 3)` dumps as
`(1 + 2) * 3` when the constants dump as `1`, `2`, `3`. -/
theorem dump_times_divide_parenthesizes_sums {T : Type} (constantDump : T → String)
    (ReconstructName : List String → ReferenceType → String)
    (l r : ValueRefBase T) (sl sr : String)
    (hl : l.Dump constantDump ReconstructName = .ok sl)
    (hr : r.Dump constantDump ReconstructName = .ok sr) :
    (ValueRefBase.Operation .TIMES (some l) (some r)).Dump constantDump ReconstructName =
      .ok ((if has_operator_in [.PLUS, .MINUS, .NEGATE] l then "(" ++ sl ++ ")" else sl)
        ++ " * " ++
        (if has_operator_in [.PLUS, .MINUS, .NEGATE] r then "(" ++ sr ++ ")" else sr)) ∧
    (ValueRefBase.Operation .DIVIDE (some l) (some r)).Dump constantDump ReconstructName =
      .ok ((if has_operator_in [.PLUS, .MINUS, .NEGATE] l then "(" ++ sl ++ ")" else sl)
        ++ " / " ++
        (if has_operator_in [.PLUS, .MINUS, .NEGATE] r then "(" ++ sr ++ ")" else sr)) ∧
    (∀ c1 c2 c3 : T, constantDump c1 = "1" → constantDump c2 = "2" → constantDump c3 = "3" →
      (ValueRefBase.Operation .TIMES
        (some (.Operation .PLUS (some (.Constant c1)) (some (.Constant c2))))
        (some (.Constant c3))).Dump constantDump ReconstructName = .ok "(1 + 2) * 3") := by
  refine ⟨?_, ?_, ?_⟩
  · simp only [ValueRefBase.Dump, ValueRefBase.DumpPtr, hl, hr, operation_dump_times,
      operand_op_type_any]
  · simp only [ValueRefBase.Dump, ValueRefBase.DumpPtr, hl, hr, operation_dump_divide,
      operand_op_type_any]
  · intro c1 c2 c3 h1 h2 h3
    simp only [ValueRefBase.Dump, ValueRefBase.DumpPtr, h1, h2, h3]
    rfl

/-- C22, at a concrete tree: `DIVIDE(MINUS(4, 1), PLUS(1, 2))` dumps as
`(4 - 1) / (1 + 2)`. -/
theorem dump_times_divide_parenthesizes_sums_witness :
    (ValueRefBase.Operation .DIVIDE
      (some (.Operation .MINUS (some (.Constant 4)) (some (.Constant 1))))
      (some (.Operation .PLUS (some (.Constant 1)) (some (.Constant 2))))).Dump
      digitDump dottedName = .ok "(4 - 1) / (1 + 2)" :=
  (dump_times_divide_parenthesizes_sums digitDump dottedName
    (.Operation .MINUS (some (.Constant 4)) (some (.Constant 1)))
    (.Operation .PLUS (some (.Constant 1)) (some (.Constant 2)))
    "4 - 1" "1 + 2" rfl rfl).2.1


/-- C23: for an `Operation` with operator `EXPONENTIATE` whose operands dump as
`sl` and `sr`, `Dump` wraps the text of an operand in parentheses exactly when the
operand is an `Operation` with operator `EXPONENTIATE`, `TIMES`, `DIVIDE`, `PLUS`,
`MINUS` or `NEGATE`, so a leaf and a function-call `Operation` stay unwrapped.  The
two nestings of `2 ^ 3 ^ 4` dump as `(2 ^ 3) ^ 4` and `2 ^ (3 ^ 4)`. -/
theorem dump_exponentiate_parenthesizes_operations {T : Type} (constantDump : T → String)
    (ReconstructName : List String → ReferenceType → String)
    (l r : ValueRefBase T) (sl sr : String)
    (hl : l.Dump constantDump ReconstructName = .ok sl)
    (hr : r.Dump constantDump ReconstructName = .ok sr) :
    (ValueRefBase.Operation .EXPONENTIATE (some l) (some r)).Dump constantDump ReconstructName =
      .ok ((if has_operator_in [.EXPONENTIATE, .TIMES, .DIVIDE, .PLUS, .MINUS, .NEGATE] l
          then "(" ++ sl ++ ")" else sl) ++ " ^ " ++
        (if has_operator_in [.EXPONENTIATE, .TIMES, .DIVIDE, .PLUS, .MINUS, .NEGATE] r
          then "(" ++ sr ++ ")" else sr)) ∧
    (∀ c2 c3 c4 : T, constantDump c2 = "2" → constantDump c3 = "3" → constantDump c4 = "4" →
      (ValueRefBase.Operation .EXPONENTIATE
        (some (.Operation .EXPONENTIATE (some (.Constant c2)) (some (.Constant c3))))
        (some (.Constant c4))).Dump constantDump ReconstructName = .ok "(2 ^ 3) ^ 4" ∧
      (ValueRefBase.Operation .EXPONENTIATE
        (some (.Constant c2))
        (some (.Operation .EXPONENTIATE (some (.Constant c3)) (some (.Constant c4))))).Dump
        constantDump ReconstructName = .ok "2 ^ (3 ^ 4)") := by
  refine ⟨?_, ?_⟩
  · simp only [ValueRefBase.Dump, ValueRefBase.DumpPtr, hl, hr, operation_dump_exponentiate,
      operand_op_type_any]
  · intro c2 c3 c4 h2 h3 h4
    constructor
    · simp only [ValueRefBase.Dump, ValueRefBase.DumpPtr, h2, h3, h4]
      rfl
    · simp only [ValueRefBase.Dump, ValueRefBase.DumpPtr, h2, h3, h4]
      rfl

/-- C23, at a concrete tree: `EXPONENTIATE(NEGATE(2), ABS(3))` dumps as
`(-2) ^ abs(3)`, the negation wrapped and the function call not. -/
theorem dump_exponentiate_parenthesizes_operations_witness :
    (ValueRefBase.Operation .EXPONENTIATE
      (some (.Operation .NEGATE (some (.Constant 2)) none))
      (some (.Operation .ABS (some (.Constant 3)) none))).Dump
      digitDump dottedName = .ok "(-2) ^ abs(3)" :=
  (dump_exponentiate_parenthesizes_operations digitDump dottedName
    (.Operation .NEGATE (some (.Constant 2)) none)
    (.Operation .ABS (some (.Constant 3)) none)
    "-2" "abs(3)" rfl rfl).1

/-- C24 fails on the code: under a `PLUS` or `MINUS` parent an operand that is a
`NEGATE` is wrapped in parentheses.  `PLUS(NEGATE(1), 2)` dumps as `(-1) + 2`, not as
the dump `-1` of its left operand followed by ` + 2`, and `MINUS(2, NEGATE(1))` dumps
as `2 - (-1)`. -/
theorem dump_plus_parenthesizes_negate :
    (ValueRefBase.Operation .PLUS
      (some (.Operation .NEGATE (some (.Constant 1)) none)) (some (.Constant 2))).Dump
      digitDump dottedName = .ok "(-1) + 2" ∧
    (ValueRefBase.Operation .NEGATE (some (.Constant 1)) none).Dump digitDump dottedName =
      .ok "-1" ∧
    (ValueRefBase.Operation .MINUS
      (some (.Constant 2)) (some (.Operation .NEGATE (some (.Constant 1)) none))).Dump
      digitDump dottedName = .ok "2 - (-1)" := by
  decide

/-- C25 fails on the code: the trees `MINUS(1, MINUS(2, 3))` and
`MINUS(MINUS(1, 2), 3)` are different, also for `operator==`, and both dump as
`1 - 2 - 3`. -/
theorem dump_same_text_for_different_trees :
    (ValueRefBase.Operation .MINUS (some (.Constant 1))
      (some (.Operation .MINUS (some (.Constant 2)) (some (.Constant 3))))).Dump
      digitDump dottedName = .ok "1 - 2 - 3" ∧
    (ValueRefBase.Operation .MINUS
      (some (.Operation .MINUS (some (.Constant 1)) (some (.Constant 2))))
      (some (.Constant 3))).Dump digitDump dottedName = .ok "1 - 2 - 3" ∧
    (ValueRefBase.Operation .MINUS (some (.Constant (1 : Int)))
      (some (.Operation .MINUS (some (.Constant 2)) (some (.Constant 3))))) ≠
    (ValueRefBase.Operation .MINUS
      (some (.Operation .MINUS (some (.Constant 1)) (some (.Constant 2))))
      (some (.Constant 3))) ∧
    ValueRefBase.operator_eq
      (ValueRefBase.Operation .MINUS (some (.Constant (1 : Int)))
        (some (.Operation .MINUS (some (.Constant 2)) (some (.Constant 3)))))
      (ValueRefBase.Operation .MINUS
        (some (.Operation .MINUS (some (.Constant 1)) (some (.Constant 2))))
        (some (.Constant 3))) = false := by
  refine ⟨by decide, by decide, ?_, by decide⟩
  intro h
  cases h

/-- The two bodies assemble the same text from the same operand texts. -/
theorem operation_description_eq_dump (m_op_type : OpType) (lhs rhs : Option OpType)
    (text1 text2 : Except EvalError String) :
    Operation.Description m_op_type lhs rhs text1 text2 =
      Operation.Dump m_op_type lhs rhs text1 text2 := rfl

/-- With the same leaf texts, `Description` and `Dump` of a tree are the same. -/
theorem description_eq_dump_tree {T : Type} (constantText : T → String)
    (variableText : List String → ReferenceType → String) :
    ∀ e : ValueRefBase T,
      e.Description constantText variableText = e.Dump constantText variableText
  | .Constant _ => rfl
  | .Variable _ _ => rfl
  | .Operation m_op_type a b => by
    have ha : ValueRefBase.DescriptionPtr constantText variableText a =
        ValueRefBase.DumpPtr constantText variableText a := by
      cases a with
      | none => rfl
      | some x =>
        simpa [ValueRefBase.DescriptionPtr, ValueRefBase.DumpPtr] using
          description_eq_dump_tree constantText variableText x
    have hb : ValueRefBase.DescriptionPtr constantText variableText b =
        ValueRefBase.DumpPtr constantText variableText b := by
      cases b with
      | none => rfl
      | some y =>
        simpa [ValueRefBase.DescriptionPtr, ValueRefBase.DumpPtr] using
          description_eq_dump_tree constantText variableText y
    simp only [ValueRefBase.Description, ValueRefBase.Dump, ha, hb,
      operation_description_eq_dump]

/-- C26: `Description` and `Dump` render alike.  At a node the two bodies give
the same text from the same operand texts, whatever the operator and the operands
are: the same parentheses, operator symbols and function names.  So on every tree,
with the leaf descriptions replaced by the leaf dumps, `Description` gives exactly
what `Dump` gives, the same text or the same error. -/
theorem description_and_dump_agree {T : Type} (constantDump : T → String)
    (ReconstructName : List String → ReferenceType → String) (e : ValueRefBase T)
    (m_op_type : OpType) (lhs rhs : Option OpType) (text1 text2 : Except EvalError String) :
    Operation.Description m_op_type lhs rhs text1 text2 =
      Operation.Dump m_op_type lhs rhs text1 text2 ∧
    e.Description constantDump ReconstructName = e.Dump constantDump ReconstructName :=
  ⟨operation_description_eq_dump m_op_type lhs rhs text1 text2,
    description_eq_dump_tree constantDump ReconstructName e⟩

/-! ## Equality, construction and evaluation of nodes -/

/-- C27: two `Constant` nodes compare equal exactly when their values are equal,
and a `Constant` and a `Variable` compare unequal in both orders, whatever they hold. -/
theorem constant_equality {T : Type} [DecidableEq T] (a b : T) (r : ReferenceType)
    (name : List String) :
    (ValueRefBase.operator_eq (.Constant a) (.Constant b) = true ↔ a = b) ∧
    ValueRefBase.operator_eq (.Constant a) (.Variable r name) = false ∧
    ValueRefBase.operator_eq (.Variable r name) (.Constant a) = false := by
  refine ⟨?_, ?_, ?_⟩
  · simp [ValueRefBase.operator_eq]
  · simp [ValueRefBase.operator_eq]
  · simp [ValueRefBase.operator_eq]

/-- C28 fails on the code: `PLUS(1, 2)` and `MINUS(1, 2)` carry different operators
and evaluate to `3` and `-1`, and `operator==` returns true on them, since it compares
the operands only. -/
theorem operation_equality_ignores_operator :
    ValueRefBase.operator_eq
      (ValueRefBase.Operation .PLUS (some (.Constant (1 : Int))) (some (.Constant 2)))
      (ValueRefBase.Operation .MINUS (some (.Constant 1)) (some (.Constant 2))) = true ∧
    ValueRefBase.Eval addressLookup (ScriptingContext.empty : ScriptingContext Int)
      (ValueRefBase.Operation .PLUS (some (.Constant (1 : Int))) (some (.Constant 2))) =
      .ok 3 ∧
    ValueRefBase.Eval addressLookup (ScriptingContext.empty : ScriptingContext Int)
      (ValueRefBase.Operation .MINUS (some (.Constant (1 : Int))) (some (.Constant 2))) =
      .ok (-1) := by
  decide

/-- C29: the `Variable` built from a non-empty path has reference type `SOURCE`
for the first segment `Source`, `EFFECT_TARGET` for `Target` and for `Value`,
`CONDITION_LOCAL_CANDIDATE` for `LocalCandidate`, `CONDITION_ROOT_CANDIDATE` for
`RootCandidate` and `NON_OBJECT` for any other first segment; two paths with the same
first segment get the same reference type. -/
theorem variable_reference_type {T : Type} (ref_type_name : String) (rest rest' : List String) :
    (Variable.new ("Source" :: rest) : Option (ValueRefBase T)) =
      some (.Variable .SOURCE_REFERENCE ("Source" :: rest)) ∧
    (Variable.new ("Target" :: rest) : Option (ValueRefBase T)) =
      some (.Variable .EFFECT_TARGET_REFERENCE ("Target" :: rest)) ∧
    (Variable.new ("Value" :: rest) : Option (ValueRefBase T)) =
      some (.Variable .EFFECT_TARGET_REFERENCE ("Value" :: rest)) ∧
    (Variable.new ("LocalCandidate" :: rest) : Option (ValueRefBase T)) =
      some (.Variable .CONDITION_LOCAL_CANDIDATE_REFERENCE ("LocalCandidate" :: rest)) ∧
    (Variable.new ("RootCandidate" :: rest) : Option (ValueRefBase T)) =
      some (.Variable .CONDITION_ROOT_CANDIDATE_REFERENCE ("RootCandidate" :: rest)) ∧
    (ref_type_name ≠ "Source" → ref_type_name ≠ "Target" → ref_type_name ≠ "Value" →
      ref_type_name ≠ "LocalCandidate" → ref_type_name ≠ "RootCandidate" →
      (Variable.new (ref_type_name :: rest) : Option (ValueRefBase T)) =
        some (.Variable .NON_OBJECT_REFERENCE (ref_type_name :: rest))) ∧
    (∃ m_ref_type,
      (Variable.new (ref_type_name :: rest) : Option (ValueRefBase T)) =
        some (.Variable m_ref_type (ref_type_name :: rest)) ∧
      (Variable.new (ref_type_name :: rest') : Option (ValueRefBase T)) =
        some (.Variable m_ref_type (ref_type_name :: rest'))) := by
  refine ⟨by simp [Variable.new, Source_name], ?_, ?_, ?_, ?_, ?_, ?_⟩
  · simp [Variable.new, Source_name, Target_name, Value_name]
  · simp [Variable.new, Source_name, Target_name, Value_name]
  · simp [Variable.new, Source_name, Target_name, Value_name, LocalCandidate_name]
  · simp [Variable.new, Source_name, Target_name, Value_name, LocalCandidate_name,
      RootCandidate_name]
  · intro h1 h2 h3 h4 h5
    simp [Variable.new, Source_name, Target_name, Value_name, LocalCandidate_name,
      RootCandidate_name, h1, h2, h3, h4, h5]
  · exact ⟨_, rfl, rfl⟩

/-- C30 (as stated) fails on the path `Value`: the `Variable` built from it has the
reference type `EFFECT_TARGET`, and in a context without effect target whose current
value is `7` it evaluates to `7`. -/
theorem value_variable_evaluates_without_target :
    (Variable.new ["Value"] : Option (ValueRefBase Int)) =
      some (.Variable .EFFECT_TARGET_REFERENCE ["Value"]) ∧
    (ScriptingContext.ofSourceTargetValue (some 5) none (some (7 : Int))).slot
      .EFFECT_TARGET_REFERENCE = none ∧
    ValueRefBase.Eval (Variable.Eval idProperty intFromAny)
      (ScriptingContext.ofSourceTargetValue (some 5) none (some 7))
      (.Variable .EFFECT_TARGET_REFERENCE ["Value"]) = .ok 7 :=
  ⟨by rfl, by rfl, by decide⟩

/-- C30 (amended): a `Variable` whose path is not the single segment `Value`
fails with the unresolvable-reference error in every context in which the slot of its
reference type is absent; a `Variable` whose path is the single segment `Value`
evaluates to the reading of the current value, whatever the slots hold. -/
theorem variable_eval_unresolvable {T A : Type} [Add T] [Sub T]
    (propertyLookup : Nat → List String → Except EvalError T)
    (any_cast : Option A → Except EvalError T)
    (m_ref_type r : ReferenceType) (m_property_name : List String)
    (context : ScriptingContext A)
    (hpath : m_property_name ≠ ["Value"])
    (hslot : context.slot m_ref_type = none) :
    ValueRefBase.Eval (Variable.Eval propertyLookup any_cast) context
      (.Variable m_ref_type m_property_name) = .error unresolvable_reference ∧
    ValueRefBase.Eval (Variable.Eval propertyLookup any_cast) context
      (.Variable r ["Value"]) = any_cast context.current_value := by
  constructor
  · simp [ValueRefBase.Eval, Variable.Eval, Value_name, hpath, hslot]
  · simp [ValueRefBase.Eval, Variable.Eval, Value_name]

/-- C30 (amended), at a concrete node: `Source.ID` fails with the
unresolvable-reference error in the empty context. -/
theorem variable_eval_unresolvable_witness :
    ["Source", "ID"] ≠ ["Value"] ∧
    (ScriptingContext.empty : ScriptingContext Int).slot .SOURCE_REFERENCE = none ∧
    ValueRefBase.Eval (Variable.Eval idProperty intFromAny)
      (ScriptingContext.empty : ScriptingContext Int)
      (.Variable .SOURCE_REFERENCE ["Source", "ID"]) = .error unresolvable_reference :=
  ⟨by decide, rfl,
    (variable_eval_unresolvable idProperty intFromAny .SOURCE_REFERENCE .SOURCE_REFERENCE
      ["Source", "ID"] ScriptingContext.empty (by decide) rfl).1⟩

/-! ## RMS, function-call rendering, the five-argument context, ConstantExpr -/

/-- The `RMS` loop ends on the reduction of the exact sum of the squares of the
values. -/
theorem foldl_int_sq_eq_sum (m : ObjectPropertyValues) :
    m.foldl (fun accumulator it => int_add accumulator (int_mul it.2 it.2)) 0 =
      int_wrap ((m.map Prod.snd).map (fun (x : Int) => x * x)).sum := by
  have key := foldl_int_add (fun x => int_mul x x) (fun x => x * x)
    (fun x => int_wrap_modEq _) m 0 (by decide)
  simpa using key

/-- A sum of squares is not negative. -/
theorem sum_sq_nonneg (values : List Int) :
    0 ≤ (values.map (fun (x : Int) => x * x)).sum := by
  induction values with
  | nil => simp
  | cons x rest ih =>
    simp only [List.map_cons, List.sum_cons]
    nlinarith [mul_self_nonneg x]

/-- C33: over a non-empty collection of integer values whose arithmetic does not
overflow, the sum of the squares being a value of `int`, the `RMS` reduction returns
the square root, truncated to an integer, of the exact rational mean of the squares;
the value is the one the code computes, the truncated square root of the sum of the
squares divided by the count with integer division.  Without the condition the
reduction returns the same expression of the sum of the squares reduced modulo `2^32`
into the range of `int`: over the single value `46341`, whose square exceeds
`INT_MAX`, the accumulator is negative and the reduction returns `INT_MIN`. -/
theorem rms_reduction (m : ObjectPropertyValues) (hne : m ≠ []) :
    ReduceData .RMS m = .ok (sqrt_cast
      ((int_wrap ((m.map Prod.snd).map (fun (x : Int) => x * x)).sum).tdiv
        ((m.length : Nat) : Int))) ∧
    (((m.map Prod.snd).map (fun (x : Int) => x * x)).sum ≤ INT_MAX →
      ∃ r, ReduceData .RMS m = .ok r ∧ IsTruncatedSqrt (meanOfSquares (m.map Prod.snd)) r ∧
        r = sqrt_cast (((m.map Prod.snd).map (fun (x : Int) => x * x)).sum.tdiv
          ((m.length : Nat) : Int))) ∧
    ReduceData .RMS [(some 1, 46341)] = .ok INT_MIN := by
  have hlen : (0 : Int) < ((m.length : Nat) : Int) := by
    have : 0 < m.length := List.length_pos.mpr hne
    exact_mod_cast this
  have hrms : ReduceData .RMS m = .ok (sqrt_cast
      ((int_wrap ((m.map Prod.snd).map (fun (x : Int) => x * x)).sum).tdiv
        ((m.length : Nat) : Int))) := by
    cases m with
    | nil => exact absurd rfl hne
    | cons entry rest => simp only [ReduceData, foldl_int_sq_eq_sum]
  refine ⟨hrms, fun hmax => ?_, by decide⟩
  have hnonneg := sum_sq_nonneg (m.map Prod.snd)
  have hrange : InIntRange ((m.map Prod.snd).map (fun (x : Int) => x * x)).sum := by
    refine ⟨?_, hmax⟩
    unfold INT_MIN
    omega
  refine ⟨_, ?_, ?_, rfl⟩
  · rw [hrms, int_wrap_of_inIntRange _ hrange]
  · have hsq := isTruncatedSqrt_sqrt_cast_tdiv _ _ hnonneg hlen
    simpa [meanOfSquares] using hsq

/-- C33, at a concrete collection: over `1, 7` the sum of the squares `50` is a
value of `int`, the mean of the squares is `25` and the `RMS` reduction returns `5`. -/
theorem rms_reduction_witness :
    (([1, 7] : List Int).map (fun (x : Int) => x * x)).sum ≤ INT_MAX ∧
    (∃ r, ReduceData .RMS [(some 1, 1), (some 2, 7)] = .ok r ∧
      IsTruncatedSqrt (meanOfSquares [1, 7]) r) ∧
    ReduceData .RMS [(some 1, 1), (some 2, 7)] = .ok 5 :=
  ⟨by decide,
    match (rms_reduction [(some 1, 1), (some 2, 7)] (by simp)).2.1 (by decide) with
    | ⟨r, h1, h2, _⟩ => ⟨r, h1, h2⟩,
    by
      have h25 : Nat.sqrt 25 = 5 := Nat.sqrt_eq 5
      simp [ReduceData, sqrt_cast, int_add, int_mul, int_wrap, Int.tdiv, h25]⟩

/-- C34 fails on the code: `MINIMUM(1, 2)`, `MAXIMUM(1, 2)` and
`RANDOM_UNIFORM(1, 2)` dump as `min(1, 1)`, `max(1, 1)` and `random(1, 1)`, with the
first operand rendered twice and the second never, and `Description` does the same. -/
theorem dump_function_call_repeats_first_operand :
    (ValueRefBase.Operation .MINIMUM (some (.Constant 1)) (some (.Constant 2))).Dump
      digitDump dottedName = .ok "min(1, 1)" ∧
    (ValueRefBase.Operation .MAXIMUM (some (.Constant 1)) (some (.Constant 2))).Dump
      digitDump dottedName = .ok "max(1, 1)" ∧
    (ValueRefBase.Operation .RANDOM_UNIFORM (some (.Constant 1)) (some (.Constant 2))).Dump
      digitDump dottedName = .ok "random(1, 1)" ∧
    (ValueRefBase.Operation .MINIMUM (some (.Constant 1)) (some (.Constant 2))).Description
      digitDump dottedName = .ok "min(1, 1)" := by
  decide

/-- C35 fails on the code: on `NEGATE(ABS(1))`, a unary node over a unary node,
`Dump` and `Description` leave the `NEGATE` block without returning and end in the
dereference of the absent second operand, while `ABS(1)` alone dumps as `abs(1)`. -/
theorem dump_negate_of_function_call_reads_null :
    (ValueRefBase.Operation .NEGATE
      (some (.Operation .ABS (some (.Constant 1)) none)) none).Dump digitDump dottedName =
      .error .null_dereference ∧
    (ValueRefBase.Operation .NEGATE
      (some (.Operation .ABS (some (.Constant 1)) none)) none).Description
      digitDump dottedName = .error .null_dereference ∧
    (ValueRefBase.Operation .ABS (some (.Constant 1)) none).Dump digitDump dottedName =
      .ok "abs(1)" := by
  decide

/-- C36 fails on the code: the five-argument constructor called with the target
`2` yields a context without effect target, while its other fields are the arguments
and the three-argument constructor does keep the target. -/
theorem ofAll_drops_target :
    (ScriptingContext.ofAll (some 1) (some 2) (some (3 : Int)) (some 4) (some 5)).effect_target
      = none ∧
    (ScriptingContext.ofAll (some 1) (some 2) (some (3 : Int)) (some 4) (some 5)).source
      = some 1 ∧
    (ScriptingContext.ofSourceTargetValue (some 1) (some 2) (some (3 : Int))).effect_target
      = some 2 := by
  decide

/-- C37 fails on the code: two `Statistic` nodes with the same statistic type and
the same sampling condition over the property paths `LocalCandidate.Speed` and
`LocalCandidate.Owner` compare equal, while `Variable<T>::operator==` tells the two
paths apart. -/
theorem statistic_equality_ignores_property :
    Statistic.operator_eq (fun c c' => c == c')
      (Statistic.new ["LocalCandidate", "Speed"] .MODE (some ⟨true, true, true⟩))
      (Statistic.new ["LocalCandidate", "Owner"] .MODE (some ⟨true, true, true⟩)) = true ∧
    (Statistic.new ["LocalCandidate", "Speed"] .MODE (some ⟨true, true, true⟩)).m_property_name
      ≠ (Statistic.new ["LocalCandidate", "Owner"] .MODE
          (some ⟨true, true, true⟩)).m_property_name ∧
    ValueRefBase.operator_eq (T := Int)
      (.Variable .NON_OBJECT_REFERENCE ["LocalCandidate", "Speed"])
      (.Variable .NON_OBJECT_REFERENCE ["LocalCandidate", "Owner"]) = false := by
  decide

/-- C38 fails on the code: on the unary node `NEGATE(1)`, whose only leaf is a
`Constant`, `ConstantExpr` reaches `ConstantExpr(op->RHS())` with a null pointer and
fails its assertion, while on `PLUS(1, 2)` it returns true. -/
theorem constantExpr_fails_on_unary_operation :
    (ValueRefBase.Operation .NEGATE (some (.Constant (1 : Int))) none).ConstantExpr = none ∧
    (Operation.unary .NEGATE (some (.Constant (1 : Int)))).ConstantExpr = none ∧
    (ValueRefBase.Operation .PLUS (some (.Constant (1 : Int))) (some (.Constant 2))
      ).ConstantExpr = some true := by
  decide

/-- C39: when the operands `a` and `b` evaluate to `x` and `y` in the context, the
generic `Operation<T>::Eval` returns `x + y` for `PLUS` and `x - y` for `MINUS`; for
every other operator it throws the invalid-operator error whatever the operands are,
null or failing ones included, so without evaluating any. -/
theorem generic_operation_eval {T A : Type} [Add T] [Sub T]
    (variableEval : ReferenceType → List String → ScriptingContext A → Except EvalError T)
    (context : ScriptingContext A) (a b : ValueRefBase T) (x y : T)
    (ha : a.Eval variableEval context = .ok x) (hb : b.Eval variableEval context = .ok y) :
    (ValueRefBase.Operation .PLUS (some a) (some b)).Eval variableEval context = .ok (x + y) ∧
    (ValueRefBase.Operation .MINUS (some a) (some b)).Eval variableEval context = .ok (x - y) ∧
    (∀ (m_op_type : OpType) (m_operand1 m_operand2 : Option (ValueRefBase T)),
      m_op_type ≠ .PLUS → m_op_type ≠ .MINUS →
      (ValueRefBase.Operation m_op_type m_operand1 m_operand2).Eval variableEval context =
        .error (.runtime_error "ValueRef evaluated with an unknown or invalid OpType.")) := by
  refine ⟨?_, ?_, ?_⟩
  · simp [ValueRefBase.Eval, ValueRefBase.EvalPtr, ha, hb]
  · simp [ValueRefBase.Eval, ValueRefBase.EvalPtr, ha, hb]
  · intro m_op_type m_operand1 m_operand2 h1 h2
    cases m_op_type <;> simp_all [ValueRefBase.Eval]

/-- C39, at a concrete node: `Source.ID - 2` evaluates to `3` in a context whose
source is the object `5`. -/
theorem generic_operation_eval_witness :
    (ValueRefBase.Operation .MINUS (some (.Variable .SOURCE_REFERENCE ["Source", "ID"]))
      (some (.Constant 2))).Eval addressLookup (sourceFiveContext none) = .ok 3 :=
  (generic_operation_eval addressLookup (sourceFiveContext none)
    (.Variable .SOURCE_REFERENCE ["Source", "ID"]) (.Constant 2) 5 2 rfl rfl).2.1

end ValueRef

/-! ## MovableEnvelope -/

namespace parse.detail

open MovableEnvelope

/-- C31 fails on the code: the first `OpenEnvelope` on an envelope made for the
object `1` returns the object and leaves `pass` as it was; the second call on the same
envelope does not throw: it logs the text of `OpenedMoreThanOnce`, sets `pass` to
false and returns a null pointer. -/
theorem second_open_does_not_throw :
    (OpenEnvelope (MovableEnvelope.new (some 1)) true).returned = some 1 ∧
    (OpenEnvelope (MovableEnvelope.new (some 1)) true).pass = true ∧
    OpenEnvelope (OpenEnvelope (MovableEnvelope.new (some 1)) true).envelope true =
      { returned := none, pass := false,
        envelope := { obj := none, original_obj := some 1 },
        logged := [OpenedMoreThanOnce] } :=
  ⟨rfl, rfl, rfl⟩

/-- The constructors give well-formed envelopes, and copying, assigning and opening
lead from well-formed envelopes to well-formed envelopes. -/
theorem wellFormed_preserved (obj_ : Option Nat) (e self : MovableEnvelope) (pass : Bool)
    (hwf : e.WellFormed) :
    MovableEnvelope.nullptr.WellFormed ∧ (MovableEnvelope.new obj_).WellFormed ∧
    (copy_construct e).1.WellFormed ∧ (copy_construct e).2.WellFormed ∧
    (copy_assign self e).1.WellFormed ∧ (copy_assign self e).2.WellFormed ∧
    (OpenEnvelope e pass).envelope.WellFormed := by
  refine ⟨Or.inl rfl, Or.inl rfl, Or.inl rfl, Or.inr rfl, hwf, Or.inr rfl, ?_⟩
  unfold OpenEnvelope
  split <;> exact Or.inr rfl

/-- C32: copying moves.  For an envelope `e` holding the object `x`, copy
construction from `e` and copy assignment from `e` both leave `e` emptied and holding
nothing, and give a destination that holds `x` and is not emptied. -/
theorem copy_moves (e self : MovableEnvelope) (x : Nat) (hobj : e.obj = some x)
    (hwf : e.WellFormed) :
    ((copy_construct e).2.IsEmptiedEnvelope = true ∧ (copy_construct e).2.obj = none ∧
      (copy_construct e).1.obj = some x ∧ (copy_construct e).1.IsEmptiedEnvelope = false) ∧
    ((copy_assign self e).2.IsEmptiedEnvelope = true ∧ (copy_assign self e).2.obj = none ∧
      (copy_assign self e).1.obj = some x ∧
      (copy_assign self e).1.IsEmptiedEnvelope = false) := by
  have horig : e.original_obj = some x := by
    rcases hwf with h | h
    · rw [← h, hobj]
    · rw [h] at hobj; cases hobj
  simp [copy_construct, copy_assign, MovableEnvelope.new, IsEmptiedEnvelope, hobj, horig]

/-- C32, at a concrete envelope: copying and assigning from an envelope made for
the object `7` empties it and moves `7` to the destination. -/
theorem copy_moves_witness :
    (copy_construct (MovableEnvelope.new (some 7))).2.IsEmptiedEnvelope = true ∧
    (copy_construct (MovableEnvelope.new (some 7))).1.obj = some 7 ∧
    (copy_assign MovableEnvelope.nullptr
      (MovableEnvelope.new (some 7))).2.IsEmptiedEnvelope = true ∧
    (copy_assign MovableEnvelope.nullptr (MovableEnvelope.new (some 7))).1.obj = some 7 :=
  ⟨(copy_moves (MovableEnvelope.new (some 7)) MovableEnvelope.nullptr 7 rfl (Or.inl rfl)).1.1,
   (copy_moves (MovableEnvelope.new (some 7)) MovableEnvelope.nullptr 7 rfl (Or.inl rfl)).1.2.2.1,
   (copy_moves (MovableEnvelope.new (some 7)) MovableEnvelope.nullptr 7 rfl (Or.inl rfl)).2.1,
   (copy_moves (MovableEnvelope.new (some 7)) MovableEnvelope.nullptr 7 rfl (Or.inl rfl)).2.2.2.1⟩

/-- C40 fails on the code: the envelope made for the object `1` is emptied by
`OpenEnvelope`; its copy by copy construction has both members null, is not emptied,
and `OpenEnvelope` on the copy returns a null pointer with `pass` left true and
nothing logged.  Copy assignment from the same envelope does give an emptied
envelope. -/
theorem copy_of_emptied_is_not_emptied :
    (OpenEnvelope (MovableEnvelope.new (some 1)) true).envelope.IsEmptiedEnvelope = true ∧
    (copy_construct (OpenEnvelope (MovableEnvelope.new (some 1)) true).envelope).1
      = { obj := none, original_obj := none } ∧
    (copy_construct (OpenEnvelope (MovableEnvelope.new (some 1)) true).envelope
      ).1.IsEmptiedEnvelope = false ∧
    OpenEnvelope (copy_construct (OpenEnvelope (MovableEnvelope.new (some 1)) true).envelope).1
      true = { returned := none, pass := true, envelope := { obj := none, original_obj := none },
               logged := [] } ∧
    (copy_assign MovableEnvelope.nullptr
      (OpenEnvelope (MovableEnvelope.new (some 1)) true).envelope).1.IsEmptiedEnvelope = true := by
  decide

end parse.detail
